import Mathlib

/-!
Verification of the background job-processing worker of the listings-scraper
repository.  The Python source under `src/backend/src` is embedded shallowly:

* pure fragments (deduplication, ASIN extraction, counter arithmetic) become
  Lean functions;
* stateful service/worker code becomes explicit state passing over record
  types mirroring the ORM rows (`ScrapeJob`/`JobAsin`,
  `ProductScanJob`/`ProductScanItem`, `CompetitorScrapeJob`/`CompetitorScrapeItem`,
  `Competitor`);
* wall-clock timestamps are modelled as integers (minutes), `datetime.utcnow()`
  becomes an explicit `now : Int` parameter;
* the external Apify provider is modelled by `Except String` results supplied
  as environment parameters (an `Except.error` is a raised `ApifyError`);
* Python string truthiness (`if not s`) is modelled by `strTruthy` on
  `Option String`;
* floating-point rating parsing (`ApifyService.parse_rating`) is outside the
  modelled fragment: scraped rating fields carry the raw provider string.
-/

/-- Item status enum (`pending`/`running`/`completed`/`failed`),
mirroring `ItemStatus` and the per-family string statuses. -/
inductive ItemStatus
  | pending
  | running
  | completed
  | failed
deriving DecidableEq, Repr

/-- Job status enum; `partialDone` models the `"partial"` status string. -/
inductive JobStatus
  | queued
  | running
  | completed
  | partialDone
  | failed
  | cancelled
deriving DecidableEq, Repr

/-- Python truthiness of an optional string: `None` and `""` are falsy. -/
def strTruthy : Option String → Bool
  | none => false
  | some s => !s.isEmpty

-- ===========================================================================
-- Review family: records, merge/deduplication, per-ASIN processing
-- (src/backend/src/workers/scraper_worker.py `_process_asin`,
--  src/backend/src/reviews/service.py `save_reviews`,
--  src/backend/src/jobs/service.py `JobService`)
-- ===========================================================================

/-- One review record from the provider; only the fields the worker's control
flow reads (`reviewId`, `productTitle`) are modelled, plus an opaque payload
tag so distinct records with equal ids stay distinguishable. -/
structure ReviewRecord where
  reviewId : Option String
  productTitle : Option String
  payload : Nat
deriving DecidableEq, Repr

/-- Mutable state of the per-ASIN merge loop in `_process_asin`:
`all_reviews`, `seen_review_ids`, and the `asin_record.product_title`
side effect. -/
structure MergeState where
  allReviews : List ReviewRecord
  seenIds : List String
  productTitle : Option String
deriving DecidableEq, Repr

/-- One iteration of the `for review in reviews` loop in `_process_asin`:
skip when the (truthy) id was already seen, otherwise remember the id,
append the record, and populate the product title from the first record
carrying one. -/
def mergeReview (s : MergeState) (r : ReviewRecord) : MergeState :=
  match r.reviewId with
  | some i =>
    if !i.isEmpty && s.seenIds.contains i then s
    else
      { allReviews := s.allReviews ++ [r]
        seenIds := if !i.isEmpty then i :: s.seenIds else s.seenIds
        productTitle :=
          if !(strTruthy s.productTitle) && strTruthy r.productTitle then
            r.productTitle
          else s.productTitle }
  | none =>
      { allReviews := s.allReviews ++ [r]
        seenIds := s.seenIds
        productTitle :=
          if !(strTruthy s.productTitle) && strTruthy r.productTitle then
            r.productTitle
          else s.productTitle }

/-- Fold of `mergeReview` over one variant's result list. -/
def mergeVariantList (s : MergeState) (rs : List ReviewRecord) : MergeState :=
  rs.foldl mergeReview s

/-- The star-filter loop of `_process_asin`: an `Except.error` is an
`ApifyError` caught by the `except ApifyError: continue` branch and
contributes nothing to the merge. -/
def mergeVariants (variants : List (Except String (List ReviewRecord)))
    (s : MergeState) : MergeState :=
  variants.foldl
    (fun acc v =>
      match v with
      | .error _ => acc
      | .ok rs => mergeVariantList acc rs) s

/-- One iteration of `ReviewService.save_reviews`: a record whose truthy id
already exists in the store is skipped, everything else is inserted (records
with a falsy id are never deduplicated). State is (saved count, stored ids). -/
def saveReviewsStep (acc : Nat × List String) (r : ReviewRecord) :
    Nat × List String :=
  match r.reviewId with
  | some i =>
    if !i.isEmpty && acc.2.contains i then acc
    else (acc.1 + 1, if !i.isEmpty then i :: acc.2 else acc.2)
  | none => (acc.1 + 1, acc.2)

/-- `ReviewService.save_reviews`: returns the saved count given the review
ids already present in the store. -/
def save_reviews (existingIds : List String) (reviews : List ReviewRecord) :
    Nat :=
  (reviews.foldl saveReviewsStep (0, existingIds)).1

/-- One `job_asin` row (`JobAsin`): the fields `_process_asin` and
`JobService` read and write. -/
structure AsinRecord where
  asin : String
  status : ItemStatus
  errorMessage : Option String
  productTitle : Option String
  reviewsFound : Nat
  startedAt : Option Int
  completedAt : Option Int
deriving DecidableEq, Repr

/-- Environment of one `_process_asin` call: the per-star-filter provider
outcomes, whether an exception propagates out of the persistence step
(`save_reviews` / `update_asin_history`), the review ids already stored,
and the current time. -/
structure AsinEnv where
  variants : List (Except String (List ReviewRecord))
  persistFailure : Option String
  existingIds : List String
  now : Int
deriving Repr

/-- `_process_asin`: mark the row running, merge all star-filter variants
(provider errors on individual variants are swallowed), then either persist
(completed, `reviews_found` from `save_reviews`) or, when an exception
propagates from persistence, mark the row failed with the exception text.
The `product_title` side effect survives on both paths (the failure branch
commits the session). -/
def process_asin (env : AsinEnv) (rec : AsinRecord) : AsinRecord :=
  let rec1 : AsinRecord := { rec with status := .running, startedAt := some env.now }
  let ms := mergeVariants env.variants
    { allReviews := [], seenIds := [], productTitle := rec1.productTitle }
  match env.persistFailure with
  | some e =>
    { rec1 with
      status := .failed
      errorMessage := some e
      productTitle := ms.productTitle
      completedAt := some env.now }
  | none =>
    { rec1 with
      status := .completed
      productTitle := ms.productTitle
      reviewsFound := save_reviews env.existingIds ms.allReviews
      completedAt := some env.now }

/-- One `scrape_job` row (`ScrapeJob`) together with its owned `job_asin`
rows. -/
structure ScrapeJob where
  status : JobStatus
  totalAsins : Nat
  completedAsins : Nat
  failedAsins : Nat
  totalReviews : Nat
  errorMessage : Option String
  startedAt : Option Int
  completedAt : Option Int
  items : List AsinRecord
deriving DecidableEq, Repr

namespace JobService

/-- `JobService.create_job`: job `queued`, `total_asins = len(asins)`, one
pending `JobAsin` per input (stripped and upper-cased). -/
def create_job (asins : List String) : ScrapeJob :=
  { status := .queued
    totalAsins := asins.length
    completedAsins := 0
    failedAsins := 0
    totalReviews := 0
    errorMessage := none
    startedAt := none
    completedAt := none
    items := asins.map fun a =>
      { asin := a.trim.toUpper
        status := .pending
        errorMessage := none
        productTitle := none
        reviewsFound := 0
        startedAt := none
        completedAt := none } }

/-- `JobService.start_job`. -/
def start_job (now : Int) (j : ScrapeJob) : ScrapeJob :=
  { j with status := .running, startedAt := some now }

/-- `JobService.complete_job` (`partial=True` yields the `"partial"` status). -/
def complete_job (now : Int) (isPartial : Bool) (j : ScrapeJob) : ScrapeJob :=
  { j with
    status := if isPartial then .partialDone else .completed
    completedAt := some now }

/-- `JobService.fail_job`. -/
def fail_job (now : Int) (msg : String) (j : ScrapeJob) : ScrapeJob :=
  { j with status := .failed, errorMessage := some msg, completedAt := some now }

/-- `JobService.cancel_job`: sets the status and `completed_at` only; the
`job_asin` rows are not touched. -/
def cancel_job (now : Int) (j : ScrapeJob) : ScrapeJob :=
  { j with status := .cancelled, completedAt := some now }

/-- `JobService.sync_job_stats`: counters recomputed by aggregation over the
job's `job_asin` rows. -/
def sync_job_stats (j : ScrapeJob) : ScrapeJob :=
  { j with
    totalAsins := j.items.length
    completedAsins := j.items.countP (fun r => r.status == ItemStatus.completed)
    failedAsins := j.items.countP (fun r => r.status == ItemStatus.failed)
    totalReviews := (j.items.map (fun r => r.reviewsFound)).sum }

/-- `JobService.retry_failed_asins`: every failed row goes back to pending
with its error message cleared; returns the number of rows reset. -/
def retry_failed_asins (j : ScrapeJob) : Nat × ScrapeJob :=
  (j.items.countP (fun r => r.status == ItemStatus.failed),
   { j with
      items := j.items.map fun r =>
        if r.status == ItemStatus.failed then
          { r with status := .pending, errorMessage := none }
        else r })

end JobService

/-- The `/jobs/.../retry-failed` endpoint (`src/backend/src/jobs/router.py`):
the `valid_job_for_retry` dependency first rejects jobs that are not
completed/partial/failed; then failed rows are reset via the service; when
nothing was reset raise 400 (no job or item state changed, since the update
matched no rows); otherwise re-queue the job and clear its `completed_at` /
`error_message`. -/
def retryFailedAsinsEndpoint (j : ScrapeJob) : Except String ScrapeJob :=
  if j.status == JobStatus.completed || j.status == JobStatus.partialDone ||
      j.status == JobStatus.failed then
    let r := JobService.retry_failed_asins j
    if r.1 == 0 then .error "No failed ASINs to retry"
    else .ok { r.2 with status := .queued, completedAt := none, errorMessage := none }
  else .error "Can only retry failed ASINs on completed/partial/failed jobs"

-- ===========================================================================
-- Review family: worker job loop (`_process_job`) and stuck-job recovery
-- ===========================================================================

namespace Worker

/-- `JobService.get_pending_asin` returns some pending row of the job; the
model picks the first one in list order. -/
def findPendingIdx : List AsinRecord → Option Nat
  | [] => none
  | r :: rest =>
    if r.status == ItemStatus.pending then some 0
    else (findPendingIdx rest).map (fun i => i + 1)

/-- The `while True` loop of `_process_job`: process the next pending ASIN,
re-sync the job counters, repeat until no pending row remains.  `fuel` bounds
the iteration count; `process_asin` always leaves its row terminal, so
`items.length` fuel suffices. -/
def processJobLoop (envs : Nat → AsinEnv) : Nat → ScrapeJob → ScrapeJob
  | 0, j => j
  | fuel + 1, j =>
    match findPendingIdx j.items with
    | none => j
    | some idx =>
      match j.items[idx]? with
      | none => j
      | some r =>
        processJobLoop envs fuel
          (JobService.sync_job_stats
            { j with items := j.items.set idx (process_asin (envs idx) r) })

/-- The final-status dispatch at the end of `_process_job`. -/
def finalizeReviewJob (now : Int) (j : ScrapeJob) : ScrapeJob :=
  if j.failedAsins > 0 && j.completedAsins > 0 then
    JobService.complete_job now true j
  else if j.failedAsins > 0 then
    JobService.fail_job now "All ASINs failed to process" j
  else
    JobService.complete_job now false j

/-- `_process_job` (happy path: no exception escapes the per-ASIN handler):
start the job, drain pending ASINs, then finalize from the synced counters. -/
def process_job (envs : Nat → AsinEnv) (now : Int) (j : ScrapeJob) : ScrapeJob :=
  let j1 := JobService.start_job now j
  finalizeReviewJob now (processJobLoop envs j1.items.length j1)

/-- The stuck-job threshold of `_recover_stuck_jobs`:
`datetime.utcnow() - timedelta(minutes=30)`, in minutes. -/
def stuckThreshold (now : Int) : Int := now - 30

/-- The standardized timeout message used by `_recover_stuck_jobs`. -/
def timeoutMessage : String := "Job timed out (stuck for > 30 minutes)"

/-- The review-family part of `_recover_stuck_jobs`, applied to one job: a
`running` job whose `started_at` is set and older than the threshold is
force-failed; the SQL filter excludes everything else (`NULL < t` is not
satisfied). -/
def recoverReviewJob (now : Int) (j : ScrapeJob) : ScrapeJob :=
  match j.startedAt with
  | some t =>
    if j.status == JobStatus.running && t < stuckThreshold now then
      { j with
        status := .failed
        errorMessage := some timeoutMessage
        completedAt := some now }
    else j
  | none => j

end Worker

-- ===========================================================================
-- Scan family: records, services, batched processing
-- (src/backend/src/product_scans/service.py,
--  src/backend/src/workers/scraper_worker.py `_process_product_scan_batch`)
-- ===========================================================================

/-- One product-details record from the provider, with the fields the batch
paths read.  `statusCode` defaults to 0 when absent (`result.get("statusCode", 0)`),
`url` defaults to `""`. -/
structure ProductRecord where
  statusCode : Nat
  statusMessage : Option String
  asin : Option String
  url : String
  title : Option String
  productRating : Option String
  countReview : Option Nat
deriving DecidableEq, Repr

/-- One `product_scan_item` row (`ProductScanItem`). -/
structure ProductScanItem where
  channelSkuId : Nat
  inputAsin : String
  status : ItemStatus
  scrapedRating : Option String
  scrapedReviewCount : Option Nat
  scrapedTitle : Option String
  scrapedAsin : Option String
  errorMessage : Option String
  startedAt : Option Int
  completedAt : Option Int
deriving DecidableEq, Repr

/-- One `product_scan_job` row (`ProductScanJob`) with its items. -/
structure ProductScanJob where
  status : JobStatus
  totalListings : Nat
  completedListings : Nat
  failedListings : Nat
  errorMessage : Option String
  startedAt : Option Int
  completedAt : Option Int
  items : List ProductScanItem
deriving DecidableEq, Repr

namespace ProductScanService

/-- `ProductScanService.create_job`: `total_listings = len(listings)`, one
pending item per listing. -/
def create_job (listings : List (Nat × String)) : ProductScanJob :=
  { status := .queued
    totalListings := listings.length
    completedListings := 0
    failedListings := 0
    errorMessage := none
    startedAt := none
    completedAt := none
    items := listings.map fun l =>
      { channelSkuId := l.1
        inputAsin := l.2
        status := .pending
        scrapedRating := none
        scrapedReviewCount := none
        scrapedTitle := none
        scrapedAsin := none
        errorMessage := none
        startedAt := none
        completedAt := none } }

/-- `ProductScanService.start_job`. -/
def start_job (now : Int) (j : ProductScanJob) : ProductScanJob :=
  { j with status := .running, startedAt := some now }

/-- `ProductScanService.complete_job`: counters recomputed from actual item
statuses, then the final status chosen from those counts. -/
def complete_job (now : Int) (j : ProductScanJob) : ProductScanJob :=
  let completed := j.items.countP (fun it => it.status == ItemStatus.completed)
  let failed := j.items.countP (fun it => it.status == ItemStatus.failed)
  { j with
    completedListings := completed
    failedListings := failed
    completedAt := some now
    status :=
      if failed > 0 && completed > 0 then .partialDone
      else if failed > 0 && completed == 0 then .failed
      else .completed }

/-- `ProductScanService.fail_job`. -/
def fail_job (now : Int) (msg : String) (j : ProductScanJob) : ProductScanJob :=
  { j with status := .failed, errorMessage := some msg, completedAt := some now }

/-- `ProductScanService.cancel_job`: rejects jobs that are not queued or
running (`ValueError`); otherwise sets the status and `completed_at` only —
items are not touched. -/
def cancel_job (now : Int) (j : ProductScanJob) : Except String ProductScanJob :=
  if j.status == JobStatus.queued || j.status == JobStatus.running then
    .ok { j with status := .cancelled, completedAt := some now }
  else
    .error "Cannot cancel job in this status"

/-- `ProductScanService.mark_item_running`. -/
def mark_item_running (now : Int) (it : ProductScanItem) : ProductScanItem :=
  { it with status := .running, startedAt := some now }

/-- `ProductScanService.complete_item` (ratings kept as the raw provider
string; see the header note). -/
def complete_item (now : Int) (rating : Option String)
    (reviewCount : Option Nat) (title : Option String)
    (scrapedAsin : Option String) (it : ProductScanItem) : ProductScanItem :=
  { it with
    status := .completed
    scrapedRating := rating
    scrapedReviewCount := reviewCount
    scrapedTitle := title
    scrapedAsin := scrapedAsin
    completedAt := some now }

/-- `ProductScanService.fail_item`. -/
def fail_item (now : Int) (msg : String) (it : ProductScanItem) :
    ProductScanItem :=
  { it with
    status := .failed
    errorMessage := some msg
    completedAt := some now }

/-- `ProductScanService.retry_failed_items`: failed items back to pending
with `error_message`, `started_at`, `completed_at` cleared; when at least one
row matched, the job is re-queued with `completed_at` cleared. -/
def retry_failed_items (j : ProductScanJob) : Nat × ProductScanJob :=
  let n := j.items.countP (fun it => it.status == ItemStatus.failed)
  let items2 := j.items.map fun it =>
    if it.status == ItemStatus.failed then
      { it with
        status := .pending
        errorMessage := none
        startedAt := none
        completedAt := none }
    else it
  (n,
   if n > 0 then
     { j with items := items2, status := .queued, completedAt := none }
   else
     { j with items := items2 })

end ProductScanService

/-- The `/product-scans/.../retry-failed` endpoint
(`src/backend/src/product_scans/router.py`): retry via the service, raise 400
when no row matched (nothing was changed in that case). -/
def retryScanItemsEndpoint (j : ProductScanJob) : Except String ProductScanJob :=
  let r := ProductScanService.retry_failed_items j
  if r.1 == 0 then .error "No failed items to retry"
  else .ok r.2

-- ===========================================================================
-- Batched processing: ASIN recovery from URLs and the results map
-- (shared by `_process_product_scan_batch` and `_process_competitor_batch`)
-- ===========================================================================

/-- Character class `[A-Z0-9]` of the recovery regex. -/
def isAsinChar (c : Char) : Bool :=
  (decide ('A' ≤ c) && decide (c ≤ 'Z')) || (decide ('0' ≤ c) && decide (c ≤ '9'))

/-- Leftmost match of `re.search(r"/dp/([A-Z0-9]{10})", url)` over the
character list: at each position the literal `/dp/` followed by exactly ten
class characters is tried; on success the captured group is returned. -/
def extractAsinChars : List Char → Option (List Char)
  | [] => none
  | c :: rest =>
    if c == '/' && rest.take 3 == ['d', 'p', '/']
        && ((rest.drop 3).take 10).length == 10
        && ((rest.drop 3).take 10).all isAsinChar then
      some ((rest.drop 3).take 10)
    else
      extractAsinChars rest

/-- ASIN recovery from a result URL. -/
def extractAsinFromUrl (url : String) : Option String :=
  (extractAsinChars url.toList).map (fun cs => String.mk cs)

/-- The ASIN under which a result record is stored in `results_map`:
the record's own `asin` when truthy, else — when the URL is nonempty — the
ASIN recovered from the URL; otherwise the record is dropped. -/
def effectiveAsin (r : ProductRecord) : Option String :=
  if strTruthy r.asin then r.asin
  else if r.url ≠ "" then extractAsinFromUrl r.url
  else none

/-- `results_map` construction: later records overwrite earlier ones with the
same ASIN (dict assignment); the list is kept newest-first so that the first
lookup hit is the latest record. -/
def buildResultsMap (results : List ProductRecord) :
    List (String × ProductRecord) :=
  results.foldl
    (fun m r =>
      match effectiveAsin r with
      | some a => (a, r) :: m
      | none => m) []

/-- `results_map.get(asin)`. -/
def lookupResult (m : List (String × ProductRecord)) (a : String) :
    Option ProductRecord :=
  (m.find? (fun p => p.1 == a)).map (fun p => p.2)

-- ===========================================================================
-- Scan family: batch processing (`_process_product_scan_batch`)
-- ===========================================================================

/-- The per-item update of the scan batch result loop: a matched record with
status code 200 completes the item with its scraped fields; a matched record
with any other status code fails it with the provider's status message (or
the generic `"Status code: N"`); no matched record fails it with the
no-result message.  Note the scan path has no title-based escape for
non-200 records. -/
def scanItemUpdate (now : Int) (rm : List (String × ProductRecord))
    (it : ProductScanItem) : ProductScanItem :=
  match lookupResult rm it.inputAsin with
  | some r =>
    if r.statusCode == 200 then
      ProductScanService.complete_item now r.productRating r.countReview
        r.title r.asin it
    else
      ProductScanService.fail_item now
        (r.statusMessage.getD ("Status code: " ++ toString r.statusCode)) it
  | none =>
    ProductScanService.fail_item now "No result returned from Apify" it

/-- `item_map = {item.input_asin: item for item in items}` keeps, per ASIN,
the last item of the batch, and each distinct ASIN is visited once; so the
update is applied exactly to the last occurrence of every ASIN, while earlier
duplicates keep their state. -/
def mapLastOcc (key : ProductScanItem → String)
    (f : ProductScanItem → ProductScanItem) :
    List ProductScanItem → List ProductScanItem
  | [] => []
  | it :: rest =>
    (if rest.any (fun it2 => key it2 == key it) then it else f it)
      :: mapLastOcc key f rest

/-- `_process_product_scan_batch` on one batch of items: all items are marked
running; on a successful provider call each (ASIN-deduplicated) item is
updated from the results map; on an `ApifyError` (or any other exception)
every still-running item of the batch is failed with the exception text. -/
def processScanBatch (now : Int) (resultsE : Except String (List ProductRecord))
    (items : List ProductScanItem) : List ProductScanItem :=
  let running := items.map (ProductScanService.mark_item_running now)
  match resultsE with
  | .ok results =>
    mapLastOcc (fun it => it.inputAsin) (scanItemUpdate now (buildResultsMap results)) running
  | .error e =>
    running.map fun it =>
      if it.status == ItemStatus.running then
        ProductScanService.fail_item now e it
      else it

-- ===========================================================================
-- Competitor family: data model and services
-- (src/backend/src/competitors/models.py, src/backend/src/competitors/service.py)
-- ===========================================================================

/-- The `schedule` enum of a tracked competitor. -/
inductive ScheduleType
  | none
  | daily
  | every2Days
  | every3Days
  | weekly
  | monthly
deriving DecidableEq, Repr

/-- One `competitor` row, with the fields the worker and scheduler read. -/
structure Competitor where
  id : Nat
  asin : String
  marketplace : String
  packSize : Option Nat
  schedule : ScheduleType
  nextScrapeAt : Option Int
  isActive : Bool
deriving DecidableEq, Repr

/-- One `competitor_scrape_item` row. -/
structure CompetitorScrapeItem where
  competitorId : Nat
  inputAsin : String
  status : ItemStatus
  errorMessage : Option String
  startedAt : Option Int
  completedAt : Option Int
deriving DecidableEq, Repr

/-- One `competitor_scrape_job` row with its items. -/
structure CompetitorScrapeJob where
  status : JobStatus
  jobType : String
  marketplace : String
  totalCompetitors : Nat
  completedCompetitors : Nat
  failedCompetitors : Nat
  errorMessage : Option String
  startedAt : Option Int
  completedAt : Option Int
  items : List CompetitorScrapeItem
deriving DecidableEq, Repr

namespace CompetitorService

/-- `CompetitorService._calculate_next_scrape`, with time in minutes
(daily = now + 1440 minutes = now + 1 day, monthly = 30 days). -/
def calculate_next_scrape (now : Int) : ScheduleType → Int
  | .none => now
  | .daily => now + 1440
  | .every2Days => now + 2 * 1440
  | .every3Days => now + 3 * 1440
  | .weekly => now + 7 * 1440
  | .monthly => now + 30 * 1440

/-- `CompetitorService.update_next_scrape`: advance `next_scrape_at` to
"now + schedule interval" unless the schedule is `none`. -/
def update_next_scrape (now : Int) (c : Competitor) : Competitor :=
  if c.schedule != ScheduleType.none then
    { c with nextScrapeAt := some (calculate_next_scrape now c.schedule) }
  else c

/-- `CompetitorService.get_due_scheduled_competitors`: active competitors
with a schedule whose `next_scrape_at` has passed (`NULL <= now` does not
match). -/
def get_due_scheduled_competitors (now : Int) (cs : List Competitor) :
    List Competitor :=
  cs.filter fun c =>
    c.isActive && c.schedule != ScheduleType.none &&
      (match c.nextScrapeAt with
       | some t => decide (t ≤ now)
       | Option.none => false)

/-- `CompetitorService.create_scrape_job`: `total_competitors` is the length
of the requested id list, while items are created only for ids that resolve
to an existing competitor row. -/
def create_scrape_job (marketplace : String) (competitorIds : List Nat)
    (competitors : List Competitor) : CompetitorScrapeJob :=
  { status := .queued
    jobType := "manual"
    marketplace := marketplace.toLower
    totalCompetitors := competitorIds.length
    completedCompetitors := 0
    failedCompetitors := 0
    errorMessage := none
    startedAt := none
    completedAt := none
    items := competitorIds.filterMap fun cid =>
      (competitors.find? (fun c => c.id == cid)).map fun c =>
        { competitorId := cid
          inputAsin := c.asin
          status := .pending
          errorMessage := none
          startedAt := none
          completedAt := none } }

/-- `CompetitorService.cancel_scrape_job`: the job is cancelled and every
still-pending item is failed with the "Job cancelled" message (without
touching the job counters or stamping `completed_at`). -/
def cancel_scrape_job (j : CompetitorScrapeJob) : CompetitorScrapeJob :=
  { j with
    status := .cancelled
    items := j.items.map fun it =>
      if it.status == ItemStatus.pending then
        { it with status := .failed, errorMessage := some "Job cancelled" }
      else it }

end CompetitorService

-- ===========================================================================
-- Competitor family: worker batch processing and scheduler trigger
-- (src/backend/src/workers/scraper_worker.py)
-- ===========================================================================

/-- `COMPETITOR_BATCH_SIZE`. -/
def COMPETITOR_BATCH_SIZE : Nat := 50

/-- The session state a competitor batch touches: the job (with items), the
competitor rows, and logs of the `save_scraped_data` / `record_price_history`
side effects (by competitor id). -/
structure CompWorld where
  job : CompetitorScrapeJob
  competitors : List Competitor
  savedData : List Nat
  priceHistory : List Nat
deriving Repr

/-- Replace item `i` of the job. -/
def setCompItem (w : CompWorld) (i : Nat) (it : CompetitorScrapeItem) :
    CompWorld :=
  { w with job := { w.job with items := w.job.items.set i it } }

/-- `item.competitor` (relationship lookup by id). -/
def findCompetitor (cs : List Competitor) (cid : Nat) : Option Competitor :=
  cs.find? (fun c => c.id == cid)

/-- In-place update of the competitor row with the given id. -/
def updateCompetitorById (cs : List Competitor) (cid : Nat)
    (f : Competitor → Competitor) : List Competitor :=
  cs.map fun c => if c.id == cid then f c else c

/-- The "mark all items as running" loop at the top of
`_process_competitor_batch`. -/
def markBatchRunning (now : Int) (w : CompWorld) (batch : List Nat) :
    CompWorld :=
  batch.foldl
    (fun w i =>
      match w.job.items[i]? with
      | some it => setCompItem w i { it with status := .running, startedAt := some now }
      | Option.none => w) w

/-- ASIN of batch item `i` (used to reproduce the `item_map` keying). -/
def asinAt (items : List CompetitorScrapeItem) (i : Nat) : String :=
  ((items[i]?).map (fun it => it.inputAsin)).getD ""

/-- `item_map = {item.input_asin: item for item in items}` keeps, per ASIN,
the last item of the batch, and each distinct ASIN is visited once; so
exactly the last occurrence of every ASIN is processed. -/
def lastOccIdxFilter (key : Nat → String) : List Nat → List Nat
  | [] => []
  | i :: rest =>
    if rest.any (fun j => key j == key i) then lastOccIdxFilter key rest
    else i :: lastOccIdxFilter key rest

/-- One iteration of the `for asin, item in item_map.items()` loop of
`_process_competitor_batch`: on a matched record with status 200 or a truthy
title, the scraped data is saved, a price-history row is recorded, the
competitor's next scrape time advances when it has a schedule, and the item
completes (bumping `completed_competitors`); otherwise the item fails with
the provider's status message resp. the no-result message (bumping
`failed_competitors`). -/
def competitorEntryStep (now : Int) (rm : List (String × ProductRecord))
    (w : CompWorld) (i : Nat) : CompWorld :=
  match w.job.items[i]? with
  | Option.none => w
  | some item =>
    let comp := findCompetitor w.competitors item.competitorId
    match lookupResult rm item.inputAsin with
    | some r =>
      if r.statusCode == 200 || strTruthy r.title then
        let w1 := { w with
          savedData := item.competitorId :: w.savedData
          priceHistory := item.competitorId :: w.priceHistory }
        let w2 :=
          match comp with
          | some c =>
            if c.schedule != ScheduleType.none then
              { w1 with competitors := (updateCompetitorById w1.competitors
                  item.competitorId (CompetitorService.update_next_scrape now)) }
            else w1
          | Option.none => w1
        let w3 := setCompItem w2 i
          { item with status := .completed, completedAt := some now }
        { w3 with job :=
            { w3.job with completedCompetitors := w3.job.completedCompetitors + 1 } }
      else
        let w1 := setCompItem w i
          { item with
            status := .failed
            errorMessage :=
              some (r.statusMessage.getD ("Status code: " ++ toString r.statusCode))
            completedAt := some now }
        { w1 with job :=
            { w1.job with failedCompetitors := w1.job.failedCompetitors + 1 } }
    | Option.none =>
      let w1 := setCompItem w i
        { item with
          status := .failed
          errorMessage := some "No result returned from Apify"
          completedAt := some now }
      { w1 with job :=
          { w1.job with failedCompetitors := w1.job.failedCompetitors + 1 } }

/-- The `except ApifyError` / `except Exception` path of
`_process_competitor_batch`: every still-running batch item is failed with
the exception text, bumping `failed_competitors` per item. -/
def failRunningBatch (now : Int) (e : String) (w : CompWorld)
    (batch : List Nat) : CompWorld :=
  batch.foldl
    (fun w i =>
      match w.job.items[i]? with
      | some it =>
        if it.status == ItemStatus.running then
          let w1 := setCompItem w i
            { it with
              status := .failed
              errorMessage := some e
              completedAt := some now }
          { w1 with job :=
              { w1.job with failedCompetitors := w1.job.failedCompetitors + 1 } }
        else w
      | Option.none => w) w

/-- `_process_competitor_batch` on one batch (given by item indices): mark
everything running, then either walk the results map per distinct ASIN or
fail the whole batch on a provider error. -/
def processCompetitorBatch (now : Int)
    (resultsE : Except String (List ProductRecord)) (w : CompWorld)
    (batch : List Nat) : CompWorld :=
  let w1 := markBatchRunning now w batch
  match resultsE with
  | .ok results =>
    (lastOccIdxFilter (asinAt w1.job.items) batch).foldl
      (competitorEntryStep now (buildResultsMap results)) w1
  | .error e => failRunningBatch now e w1 batch

/-- Indices of the job's pending items, in order
(`get_pending_items_for_job`). -/
def pendingIdxs (items : List CompetitorScrapeItem) : List Nat :=
  (List.range items.length).filter fun i =>
    match items[i]? with
    | some it => it.status == ItemStatus.pending
    | Option.none => false

/-- The `while True` batch loop of `_process_competitor_scrape_job`; the
`batchNo`-th provider call returns `benv batchNo`. -/
def competitorLoop (benv : Nat → Except String (List ProductRecord))
    (now : Int) : Nat → Nat → CompWorld → CompWorld
  | 0, _, w => w
  | fuel + 1, batchNo, w =>
    let pend := pendingIdxs w.job.items
    if pend.isEmpty then w
    else
      competitorLoop benv now fuel (batchNo + 1)
        (processCompetitorBatch now (benv batchNo) w
          (pend.take COMPETITOR_BATCH_SIZE))

/-- The finalization block of `_process_competitor_scrape_job` (lines
562-571): final status from the accumulated counters. -/
def finalizeCompetitorJob (now : Int) (j : CompetitorScrapeJob) :
    CompetitorScrapeJob :=
  { j with
    status :=
      if j.failedCompetitors > 0 && j.completedCompetitors > 0 then .partialDone
      else if j.failedCompetitors > 0 && j.completedCompetitors == 0 then .failed
      else .completed
    completedAt := some now }

/-- `_process_competitor_scrape_job` (happy path: no exception escapes the
batch handlers): mark running, drain pending items in batches, finalize. -/
def process_competitor_scrape_job (benv : Nat → Except String (List ProductRecord))
    (now : Int) (w : CompWorld) : CompWorld :=
  let w1 : CompWorld :=
    { w with job := { w.job with status := .running, startedAt := some now } }
  let w2 := competitorLoop benv now w1.job.items.length 0 w1
  { w2 with job := finalizeCompetitorJob now w2.job }

/-- State touched by the scheduler trigger: the competitor rows and the
created jobs. -/
structure SchedulerWorld where
  competitors : List Competitor
  jobs : List CompetitorScrapeJob
deriving Repr

/-- First-occurrence deduplication (Python dict key order for the
`by_marketplace` grouping). -/
def dedupFirstAux (seen : List String) : List String → List String
  | [] => []
  | a :: rest =>
    if seen.contains a then dedupFirstAux seen rest
    else a :: dedupFirstAux (a :: seen) rest

/-- Marketplaces of the due competitors, in first-occurrence order. -/
def marketplaceKeys (cs : List Competitor) : List String :=
  dedupFirstAux [] (cs.map fun c => c.marketplace)

/-- `_check_scheduled_competitor_scrapes`: when any competitor is due, one
`scheduled` job per marketplace group is created, containing exactly the due
competitors of that marketplace.  The competitor rows themselves are not
written. -/
def check_scheduled_competitor_scrapes (now : Int) (w : SchedulerWorld) :
    SchedulerWorld :=
  let due := CompetitorService.get_due_scheduled_competitors now w.competitors
  if due.isEmpty then w
  else
    { w with jobs := w.jobs ++ (marketplaceKeys due).map fun mp =>
        { CompetitorService.create_scrape_job mp
            ((due.filter (fun c => c.marketplace == mp)).map fun c => c.id)
            w.competitors with
          jobType := "scheduled" } }

namespace Worker

/-- The scan-family part of `_recover_stuck_jobs`, applied to one job. -/
def recoverScanJob (now : Int) (j : ProductScanJob) : ProductScanJob :=
  match j.startedAt with
  | some t =>
    if j.status == JobStatus.running && t < stuckThreshold now then
      { j with
        status := .failed
        errorMessage := some timeoutMessage
        completedAt := some now }
    else j
  | Option.none => j

/-- The competitor-family part of `_recover_stuck_jobs`, applied to one job. -/
def recoverCompetitorJob (now : Int) (j : CompetitorScrapeJob) :
    CompetitorScrapeJob :=
  match j.startedAt with
  | some t =>
    if j.status == JobStatus.running && t < stuckThreshold now then
      { j with
        status := .failed
        errorMessage := some timeoutMessage
        completedAt := some now }
    else j
  | Option.none => j

end Worker

-- ===========================================================================
-- Sample inputs used by counterexamples and witnesses
-- ===========================================================================

/-- A pending review-item row. -/
def samplePendingAsin : AsinRecord :=
  { asin := "B000000001"
    status := .pending
    errorMessage := none
    productTitle := none
    reviewsFound := 0
    startedAt := none
    completedAt := none }

/-- A running review job holding one pending item. -/
def sampleRunningReviewJob : ScrapeJob :=
  { status := .running
    totalAsins := 1
    completedAsins := 0
    failedAsins := 0
    totalReviews := 0
    errorMessage := none
    startedAt := some 0
    completedAt := none
    items := [samplePendingAsin] }

/-- A pending scan-item row. -/
def sampleScanItem : ProductScanItem :=
  { channelSkuId := 7
    inputAsin := "B000000001"
    status := .pending
    scrapedRating := none
    scrapedReviewCount := none
    scrapedTitle := none
    scrapedAsin := none
    errorMessage := none
    startedAt := none
    completedAt := none }

/-- A running scan job holding one pending item. -/
def sampleRunningScanJob : ProductScanJob :=
  { status := .running
    totalListings := 1
    completedListings := 0
    failedListings := 0
    errorMessage := none
    startedAt := some 0
    completedAt := none
    items := [sampleScanItem] }

/-- A pending competitor-item row. -/
def sampleCompetitorItem : CompetitorScrapeItem :=
  { competitorId := 3
    inputAsin := "B000000001"
    status := .pending
    errorMessage := none
    startedAt := none
    completedAt := none }

/-- A running competitor job holding one pending item. -/
def sampleRunningCompetitorJob : CompetitorScrapeJob :=
  { status := .running
    jobType := "manual"
    marketplace := "com"
    totalCompetitors := 1
    completedCompetitors := 0
    failedCompetitors := 0
    errorMessage := none
    startedAt := some 0
    completedAt := none
    items := [sampleCompetitorItem] }

/-- A provider record with a non-success status code but a usable title. -/
def sampleNon200TitledRecord : ProductRecord :=
  { statusCode := 404
    statusMessage := some "Page not found"
    asin := some "B000000001"
    url := ""
    title := some "Widget, 2-pack"
    productRating := none
    countReview := some 12 }

-- ===========================================================================
-- C6: stuck-job recovery
-- ===========================================================================

/-- C6: for every family, the stuck-job sweep force-transitions a `running`
job whose `started_at` is older than the 30-minute threshold to `failed`
with the standardized timeout message, stamping `completed_at`; and the
sweep is idempotent on an already-recovered job, whose terminal status the
threshold query excludes. -/
theorem C6_stuck_recovery (now now2 t : Int)
    (jr : ScrapeJob) (js : ProductScanJob) (jc : CompetitorScrapeJob)
    (hr : jr.status = .running) (hrt : jr.startedAt = some t)
    (hs : js.status = .running) (hst : js.startedAt = some t)
    (hc : jc.status = .running) (hct : jc.startedAt = some t)
    (ht : t < Worker.stuckThreshold now) :
    ((Worker.recoverReviewJob now jr).status = .failed ∧
      (Worker.recoverReviewJob now jr).errorMessage = some Worker.timeoutMessage ∧
      (Worker.recoverReviewJob now jr).completedAt = some now ∧
      Worker.recoverReviewJob now2 (Worker.recoverReviewJob now jr) =
        Worker.recoverReviewJob now jr) ∧
    ((Worker.recoverScanJob now js).status = .failed ∧
      (Worker.recoverScanJob now js).errorMessage = some Worker.timeoutMessage ∧
      (Worker.recoverScanJob now js).completedAt = some now ∧
      Worker.recoverScanJob now2 (Worker.recoverScanJob now js) =
        Worker.recoverScanJob now js) ∧
    ((Worker.recoverCompetitorJob now jc).status = .failed ∧
      (Worker.recoverCompetitorJob now jc).errorMessage = some Worker.timeoutMessage ∧
      (Worker.recoverCompetitorJob now jc).completedAt = some now ∧
      Worker.recoverCompetitorJob now2 (Worker.recoverCompetitorJob now jc) =
        Worker.recoverCompetitorJob now jc) := by
  refine ⟨?_, ?_, ?_⟩
  · simp [Worker.recoverReviewJob, hr, hrt, ht]
  · simp [Worker.recoverScanJob, hs, hst, ht]
  · simp [Worker.recoverCompetitorJob, hc, hct, ht]

/-- Witness for C6 at a concrete stuck job in each family. -/
theorem C6_stuck_recovery_witness :
    ((Worker.recoverReviewJob 45 sampleRunningReviewJob).status = .failed ∧
      (Worker.recoverReviewJob 45 sampleRunningReviewJob).errorMessage =
        some Worker.timeoutMessage ∧
      (Worker.recoverReviewJob 45 sampleRunningReviewJob).completedAt = some 45 ∧
      Worker.recoverReviewJob 99 (Worker.recoverReviewJob 45 sampleRunningReviewJob) =
        Worker.recoverReviewJob 45 sampleRunningReviewJob) ∧
    ((Worker.recoverScanJob 45 sampleRunningScanJob).status = .failed ∧
      (Worker.recoverScanJob 45 sampleRunningScanJob).errorMessage =
        some Worker.timeoutMessage ∧
      (Worker.recoverScanJob 45 sampleRunningScanJob).completedAt = some 45 ∧
      Worker.recoverScanJob 99 (Worker.recoverScanJob 45 sampleRunningScanJob) =
        Worker.recoverScanJob 45 sampleRunningScanJob) ∧
    ((Worker.recoverCompetitorJob 45 sampleRunningCompetitorJob).status = .failed ∧
      (Worker.recoverCompetitorJob 45 sampleRunningCompetitorJob).errorMessage =
        some Worker.timeoutMessage ∧
      (Worker.recoverCompetitorJob 45 sampleRunningCompetitorJob).completedAt = some 45 ∧
      Worker.recoverCompetitorJob 99
          (Worker.recoverCompetitorJob 45 sampleRunningCompetitorJob) =
        Worker.recoverCompetitorJob 45 sampleRunningCompetitorJob) :=
  C6_stuck_recovery 45 99 0 sampleRunningReviewJob sampleRunningScanJob
    sampleRunningCompetitorJob (by decide) (by decide) (by decide) (by decide)
    (by decide) (by decide) (by decide)

-- ===========================================================================
-- C4: cancellation
-- ===========================================================================

/-- C4 counterexample: cancelling a running Review job with one pending item
sets the job to `cancelled` but leaves the pending item untouched — the
claim that cancellation "marks every still-pending item of that job failed"
in every family is false for the Review family. -/
theorem C4_counterexample :
    (JobService.cancel_job 1 sampleRunningReviewJob).status = .cancelled ∧
    (JobService.cancel_job 1 sampleRunningReviewJob).items.countP
        (fun r => r.status == ItemStatus.pending) = 1 ∧
    (JobService.cancel_job 1 sampleRunningReviewJob).items.countP
        (fun r => r.status == ItemStatus.failed) = 0 := by
  decide

/-- C4 amended: in every family the cancel operation sets the job's status to
`cancelled` (Scan rejecting jobs that are neither queued nor running), but
only the Competitor family's cancel marks the still-pending items failed,
with the "Job cancelled" message; Review and Scan cancels leave the items
unchanged. -/
theorem C4_amended_cancel (now : Int)
    (jr : ScrapeJob) (js : ProductScanJob) (jc : CompetitorScrapeJob)
    (hs : js.status = .queued ∨ js.status = .running) :
    ((JobService.cancel_job now jr).status = .cancelled ∧
      (JobService.cancel_job now jr).items = jr.items) ∧
    (∃ js2, ProductScanService.cancel_job now js = .ok js2 ∧
      js2.status = .cancelled ∧ js2.items = js.items) ∧
    ((CompetitorService.cancel_scrape_job jc).status = .cancelled ∧
      (CompetitorService.cancel_scrape_job jc).items = jc.items.map fun it =>
        if it.status == ItemStatus.pending then
          { it with status := .failed, errorMessage := some "Job cancelled" }
        else it) := by
  refine ⟨⟨rfl, rfl⟩, ?_, rfl, rfl⟩
  refine ⟨{ js with status := .cancelled, completedAt := some now }, ?_, rfl, rfl⟩
  unfold ProductScanService.cancel_job
  rcases hs with h | h <;> simp [h]

/-- Witness for C4 amended at concrete one-item jobs. -/
theorem C4_amended_cancel_witness :
    ((JobService.cancel_job 2 sampleRunningReviewJob).status = .cancelled ∧
      (JobService.cancel_job 2 sampleRunningReviewJob).items =
        sampleRunningReviewJob.items) ∧
    (∃ js2, ProductScanService.cancel_job 2 sampleRunningScanJob = .ok js2 ∧
      js2.status = .cancelled ∧ js2.items = sampleRunningScanJob.items) ∧
    ((CompetitorService.cancel_scrape_job sampleRunningCompetitorJob).status =
        .cancelled ∧
      (CompetitorService.cancel_scrape_job sampleRunningCompetitorJob).items =
        sampleRunningCompetitorJob.items.map fun it =>
          if it.status == ItemStatus.pending then
            { it with status := .failed, errorMessage := some "Job cancelled" }
          else it) :=
  C4_amended_cancel 2 sampleRunningReviewJob sampleRunningScanJob
    sampleRunningCompetitorJob (Or.inr (by decide))

-- ===========================================================================
-- C3: batched non-success handling
-- ===========================================================================

/-- C3 counterexample: in the Scan family a matched record with a non-success
status code but a perfectly usable title still fails the item — the claim's
"a record with a non-success status code but a usable title does not fail
the item" is false for the Scan batch path. -/
theorem C3_counterexample :
    sampleNon200TitledRecord.statusCode ≠ 200 ∧
    strTruthy sampleNon200TitledRecord.title = true ∧
    (processScanBatch 3 (.ok [sampleNon200TitledRecord])
        sampleRunningScanJob.items).map (fun it => it.status) =
      [ItemStatus.failed] := by
  decide

/-- C3 amended: a matched success (status 200) record completes the item in
both batch families with its scraped fields persisted; a matched non-success
record fails the Scan item with the provider's status message regardless of
its title, while the Competitor path completes the item whenever the record
has a usable title and fails it (with the provider's status message) only
when the title is unusable too. -/
theorem C3_amended_batch_status (now : Int)
    (rm : List (String × ProductRecord)) (it : ProductScanItem)
    (r : ProductRecord) (w : CompWorld) (i : Nat)
    (item : CompetitorScrapeItem) (rc : ProductRecord)
    (hlook : lookupResult rm it.inputAsin = some r)
    (hitem : w.job.items[i]? = some item)
    (hlookc : lookupResult rm item.inputAsin = some rc) :
    (r.statusCode = 200 →
      scanItemUpdate now rm it =
        ProductScanService.complete_item now r.productRating r.countReview
          r.title r.asin it) ∧
    (r.statusCode ≠ 200 →
      scanItemUpdate now rm it =
        ProductScanService.fail_item now
          (r.statusMessage.getD ("Status code: " ++ toString r.statusCode)) it) ∧
    ((rc.statusCode = 200 ∨ strTruthy rc.title) →
      (competitorEntryStep now rm w i).job.items[i]? =
          some { item with status := .completed, completedAt := some now } ∧
      (competitorEntryStep now rm w i).job.completedCompetitors =
        w.job.completedCompetitors + 1) ∧
    (rc.statusCode ≠ 200 → strTruthy rc.title = false →
      (competitorEntryStep now rm w i).job.items[i]? =
          some { item with
                  status := .failed
                  errorMessage := some (rc.statusMessage.getD
                    ("Status code: " ++ toString rc.statusCode))
                  completedAt := some now } ∧
      (competitorEntryStep now rm w i).job.failedCompetitors =
        w.job.failedCompetitors + 1) := by
  have hi : i < w.job.items.length := by
    rcases List.getElem?_eq_some.mp hitem with ⟨h, _⟩
    exact h
  refine ⟨?_, ?_, ?_, ?_⟩
  · intro h200
    simp [scanItemUpdate, hlook, h200]
  · intro hne
    simp [scanItemUpdate, hlook, hne]
  · intro hok
    have hcond : (rc.statusCode == 200 || strTruthy rc.title) = true := by
      rcases hok with h | h
      · simp [h]
      · simp [h]
    unfold competitorEntryStep
    rcases hcomp : findCompetitor w.competitors item.competitorId with _ | c
    · simp [hitem, hlookc, hcond, hcomp, setCompItem, List.getElem?_set_self hi]
    · by_cases hsch : c.schedule = ScheduleType.none
      · simp [hitem, hlookc, hcond, hcomp, hsch, setCompItem,
          List.getElem?_set_self hi]
      · simp [hitem, hlookc, hcond, hcomp, hsch, setCompItem,
          List.getElem?_set_self hi]
  · intro hne htitle
    have hcond : (rc.statusCode == 200 || strTruthy rc.title) = false := by
      simp [hne, htitle]
    unfold competitorEntryStep
    simp [hitem, hlookc, hcond, setCompItem, List.getElem?_set_self hi]

/-- Witness for C3 amended: a one-entry results map carrying a titled 404
record matched by both a scan item (fails) and a competitor item (completes). -/
theorem C3_amended_batch_status_witness :
    scanItemUpdate 3 [("B000000001", sampleNon200TitledRecord)] sampleScanItem =
      ProductScanService.fail_item 3 "Page not found" sampleScanItem ∧
    (competitorEntryStep 3 [("B000000001", sampleNon200TitledRecord)]
        { job := sampleRunningCompetitorJob, competitors := [], savedData := [],
          priceHistory := [] } 0).job.items[0]? =
      some { sampleCompetitorItem with status := .completed, completedAt := some 3 } := by
  have h := C3_amended_batch_status 3 [("B000000001", sampleNon200TitledRecord)]
    sampleScanItem sampleNon200TitledRecord
    { job := sampleRunningCompetitorJob, competitors := [], savedData := [],
      priceHistory := [] }
    0 sampleCompetitorItem sampleNon200TitledRecord
    (by decide) (by decide) (by decide)
  exact ⟨h.2.1 (by decide), (h.2.2.1 (Or.inr (by decide))).1⟩

-- ===========================================================================
-- C5: per-item Review processing under variant failures
-- ===========================================================================

/-- Whether a variant call returned instead of raising. -/
def isOkVariant (v : Except String (List ReviewRecord)) : Bool :=
  match v with
  | .ok _ => true
  | .error _ => false

/-- Errored variants contribute nothing to the merge: the merge over all
variants equals the merge over the non-raising ones. -/
theorem mergeVariants_filter_ok (vs : List (Except String (List ReviewRecord)))
    (s : MergeState) :
    mergeVariants vs s = mergeVariants (vs.filter isOkVariant) s := by
  induction vs generalizing s with
  | nil => rfl
  | cons v vs ih =>
    cases v with
    | ok rs => simpa [mergeVariants, isOkVariant] using ih (mergeVariantList s rs)
    | error e => simpa [mergeVariants, isOkVariant] using ih s

/-- When every variant raises, the merge state is untouched. -/
theorem mergeVariants_all_error (vs : List (Except String (List ReviewRecord)))
    (s : MergeState) (h : ∀ v ∈ vs, ∃ e, v = .error e) :
    mergeVariants vs s = s := by
  induction vs with
  | nil => rfl
  | cons v vs ih =>
    rcases h v (by simp) with ⟨e, rfl⟩
    exact ih (fun v hv => h v (by simp [hv]))

/-- C5: in per-item Review processing, provider errors on some variants do
not fail the item — whenever nothing propagates from persistence the item
completes, with `reviews_found` computed from the merge of exactly the
non-raising variants; when every variant raises the item still completes
with zero results; and the item is marked failed precisely when an error
propagates out of the persistence step, with that error recorded on the
item. -/
theorem C5_review_variant_errors (env : AsinEnv) (rec : AsinRecord) :
    (env.persistFailure = none →
      (process_asin env rec).status = .completed ∧
      (process_asin env rec).reviewsFound =
        save_reviews env.existingIds
          (mergeVariants (env.variants.filter isOkVariant)
            { allReviews := [], seenIds := [],
              productTitle := rec.productTitle }).allReviews) ∧
    ((∀ v ∈ env.variants, ∃ e, v = .error e) → env.persistFailure = none →
      (process_asin env rec).status = .completed ∧
      (process_asin env rec).reviewsFound = 0) ∧
    (∀ e, env.persistFailure = some e →
      (process_asin env rec).status = .failed ∧
      (process_asin env rec).errorMessage = some e) := by
  refine ⟨?_, ?_, ?_⟩
  · intro hp
    unfold process_asin
    rw [hp]
    exact ⟨rfl, by rw [← mergeVariants_filter_ok]⟩
  · intro hall hp
    unfold process_asin
    rw [hp]
    refine ⟨rfl, ?_⟩
    show save_reviews env.existingIds (mergeVariants env.variants _).allReviews = 0
    rw [mergeVariants_all_error env.variants _ hall]
    rfl
  · intro e hp
    unfold process_asin
    rw [hp]
    exact ⟨rfl, rfl⟩

/-- Witness for C5: two raising variants and one returning variant; the item
completes, and with only raising variants it completes with zero results. -/
theorem C5_review_variant_errors_witness :
    ((process_asin
        { variants := [.error "boom",
                       .ok [{ reviewId := some "r1", productTitle := none,
                              payload := 0 }],
                       .error "boom2"]
          persistFailure := none
          existingIds := []
          now := 4 } samplePendingAsin).status = .completed ∧
      (process_asin
        { variants := [.error "boom",
                       .ok [{ reviewId := some "r1", productTitle := none,
                              payload := 0 }],
                       .error "boom2"]
          persistFailure := none
          existingIds := []
          now := 4 } samplePendingAsin).reviewsFound =
        save_reviews []
          (mergeVariants
            ([.error "boom",
              .ok [({ reviewId := some "r1", productTitle := none,
                      payload := 0 } : ReviewRecord)],
              .error "boom2"].filter isOkVariant)
            { allReviews := [], seenIds := [],
              productTitle := samplePendingAsin.productTitle }).allReviews) ∧
    ((process_asin
        { variants := [.error "boom"], persistFailure := none,
          existingIds := [], now := 4 } samplePendingAsin).status = .completed ∧
      (process_asin
        { variants := [.error "boom"], persistFailure := none,
          existingIds := [], now := 4 } samplePendingAsin).reviewsFound = 0) ∧
    ((process_asin
        { variants := [.ok [{ reviewId := some "r1", productTitle := none,
                              payload := 0 }]]
          persistFailure := some "db write failed"
          existingIds := []
          now := 4 } samplePendingAsin).status = .failed ∧
      (process_asin
        { variants := [.ok [{ reviewId := some "r1", productTitle := none,
                              payload := 0 }]]
          persistFailure := some "db write failed"
          existingIds := []
          now := 4 } samplePendingAsin).errorMessage = some "db write failed") :=
  ⟨(C5_review_variant_errors
      { variants := [.error "boom",
                     .ok [{ reviewId := some "r1", productTitle := none,
                            payload := 0 }],
                     .error "boom2"]
        persistFailure := none
        existingIds := []
        now := 4 } samplePendingAsin).1 rfl,
   (C5_review_variant_errors
      { variants := [.error "boom"], persistFailure := none,
        existingIds := [], now := 4 } samplePendingAsin).2.1
      (by intro v hv; simp at hv; exact ⟨"boom", hv⟩) rfl,
   (C5_review_variant_errors
      { variants := [.ok [{ reviewId := some "r1", productTitle := none,
                            payload := 0 }]]
        persistFailure := some "db write failed"
        existingIds := []
        now := 4 } samplePendingAsin).2.2 "db write failed" rfl⟩

-- ===========================================================================
-- C10: review merge deduplication
-- ===========================================================================

/-- Concatenation of the result lists of the non-raising variants, in call
order (what the merge loop actually traverses). -/
def okJoin (vs : List (Except String (List ReviewRecord))) : List ReviewRecord :=
  vs.foldr
    (fun v acc =>
      match v with
      | .ok rs => rs ++ acc
      | .error _ => acc) []

/-- The variant-by-variant merge equals one merge pass over the concatenated
successful results. -/
theorem mergeVariants_eq_flat (vs : List (Except String (List ReviewRecord)))
    (s : MergeState) :
    mergeVariants vs s = mergeVariantList s (okJoin vs) := by
  induction vs generalizing s with
  | nil => rfl
  | cons v vs ih =>
    cases v with
    | ok rs =>
      show mergeVariants vs (mergeVariantList s rs) = _
      rw [ih]
      simp [okJoin, mergeVariantList, List.foldl_append]
    | error e =>
      show mergeVariants vs s = _
      rw [ih]
      rfl

/-- Occurrence count of a given (nonempty) review id in the merged output:
one copy is appended the first time the id shows up while the id is not yet
in the seen set, afterwards every record with that id is skipped. -/
theorem mergeVariantList_countP (i : String) (hi : i ≠ "") :
    ∀ (rs : List ReviewRecord) (s : MergeState),
    (mergeVariantList s rs).allReviews.countP (fun r => r.reviewId == some i) =
      s.allReviews.countP (fun r => r.reviewId == some i) +
        (if i ∈ s.seenIds then 0
         else if rs.any (fun r => r.reviewId == some i) then 1 else 0) := by
  intro rs
  induction rs with
  | nil =>
    intro s
    simp [mergeVariantList]
  | cons r rs ih =>
    intro s
    have hstep : mergeVariantList s (r :: rs) =
        mergeVariantList (mergeReview s r) rs := rfl
    rw [hstep, ih]
    cases hr : r.reviewId with
    | none =>
      simp [mergeReview, hr, List.countP_append]
    | some j =>
      by_cases hji : j = i
      · subst hji
        have hj : j.isEmpty = false := by
          cases hj2 : j.isEmpty
          · rfl
          · exact absurd ((String.isEmpty_iff _).mp hj2) hi
        by_cases hseen : j ∈ s.seenIds
        · simp [mergeReview, hr, hj, hseen]
        · simp [mergeReview, hr, hj, hseen, List.countP_append]
      · have hij : ¬ i = j := fun h => hji h.symm
        have hne : (some j == some i) = false := by
          simp [hji]
        cases hj : j.isEmpty with
        | true =>
          simp [mergeReview, hr, hj, hne, hij, List.countP_append]
        | false =>
          by_cases hskip : j ∈ s.seenIds
          · simp [mergeReview, hr, hj, hne, hij, hskip]
          · simp [mergeReview, hr, hj, hne, hij, hskip, List.countP_append]

/-- Records without a truthy review id are appended unconditionally and
never deduplicated: the merged output restricted to them is exactly the
input restricted to them, in order. -/
theorem mergeVariantList_filter_noid :
    ∀ (rs : List ReviewRecord) (s : MergeState),
    (mergeVariantList s rs).allReviews.filter (fun r => !(strTruthy r.reviewId)) =
      s.allReviews.filter (fun r => !(strTruthy r.reviewId)) ++
        rs.filter (fun r => !(strTruthy r.reviewId)) := by
  intro rs
  induction rs with
  | nil =>
    intro s
    simp [mergeVariantList]
  | cons r rs ih =>
    intro s
    have hstep : mergeVariantList s (r :: rs) =
        mergeVariantList (mergeReview s r) rs := rfl
    rw [hstep, ih]
    cases hr : r.reviewId with
    | none =>
      simp [mergeReview, hr, strTruthy, List.filter_append]
    | some j =>
      cases hj : j.isEmpty with
      | true =>
        simp [mergeReview, hr, hj, strTruthy, List.filter_append]
      | false =>
        by_cases hskip : j ∈ s.seenIds
        · simp [mergeReview, hr, hj, hskip, strTruthy]
        · simp [mergeReview, hr, hj, hskip, strTruthy, List.filter_append]

/-- C10: merging review results across the configured star-filter variants
yields a merged list in which every truthy provider review id appears
exactly once — once when any surviving variant carries it, zero times
otherwise — while records with no (or an empty) provider review id are all
appended, in order, and never deduplicated. -/
theorem C10_merge_dedup (vs : List (Except String (List ReviewRecord)))
    (t : Option String) (i : String) (hi : i ≠ "") :
    ((mergeVariants vs
        { allReviews := [], seenIds := [], productTitle := t }).allReviews.countP
        (fun r => r.reviewId == some i) =
      if (okJoin vs).any (fun r => r.reviewId == some i) then 1 else 0) ∧
    ((mergeVariants vs
        { allReviews := [], seenIds := [], productTitle := t }).allReviews.filter
        (fun r => !(strTruthy r.reviewId)) =
      (okJoin vs).filter (fun r => !(strTruthy r.reviewId))) := by
  rw [mergeVariants_eq_flat]
  constructor
  · rw [mergeVariantList_countP i hi]
    simp
  · rw [mergeVariantList_filter_noid]
    simp

/-- Witness for C10: two overlapping variants sharing id "r1", plus an
id-less record; the merged output carries "r1" once and keeps the id-less
record. -/
theorem C10_merge_dedup_witness :
    ((mergeVariants
        [.ok [{ reviewId := some "r1", productTitle := none, payload := 0 },
              { reviewId := none, productTitle := none, payload := 1 }],
         .ok [{ reviewId := some "r1", productTitle := none, payload := 2 },
              { reviewId := some "r2", productTitle := none, payload := 3 }]]
        { allReviews := [], seenIds := [], productTitle := none }).allReviews.countP
        (fun r => r.reviewId == some "r1") =
      if (okJoin
            [.ok [{ reviewId := some "r1", productTitle := none, payload := 0 },
                  { reviewId := none, productTitle := none, payload := 1 }],
             .ok [{ reviewId := some "r1", productTitle := none, payload := 2 },
                  { reviewId := some "r2", productTitle := none, payload := 3 }]]).any
          (fun r => r.reviewId == some "r1") then 1 else 0) ∧
    ((mergeVariants
        [.ok [{ reviewId := some "r1", productTitle := none, payload := 0 },
              { reviewId := none, productTitle := none, payload := 1 }],
         .ok [{ reviewId := some "r1", productTitle := none, payload := 2 },
              { reviewId := some "r2", productTitle := none, payload := 3 }]]
        { allReviews := [], seenIds := [], productTitle := none }).allReviews.filter
        (fun r => !(strTruthy r.reviewId)) =
      (okJoin
        [.ok [{ reviewId := some "r1", productTitle := none, payload := 0 },
              { reviewId := none, productTitle := none, payload := 1 }],
         .ok [{ reviewId := some "r1", productTitle := none, payload := 2 },
              { reviewId := some "r2", productTitle := none, payload := 3 }]]).filter
        (fun r => !(strTruthy r.reviewId))) :=
  C10_merge_dedup
    [.ok [{ reviewId := some "r1", productTitle := none, payload := 0 },
          { reviewId := none, productTitle := none, payload := 1 }],
     .ok [{ reviewId := some "r1", productTitle := none, payload := 2 },
          { reviewId := some "r2", productTitle := none, payload := 3 }]]
    none "r1" (by decide)

-- ===========================================================================
-- C9: retry of failed items
-- ===========================================================================

/-- A cancelled review job holding one failed item. -/
def sampleCancelledFailedReviewJob : ScrapeJob :=
  { status := .cancelled
    totalAsins := 1
    completedAsins := 0
    failedAsins := 1
    totalReviews := 0
    errorMessage := none
    startedAt := some 0
    completedAt := some 9
    items := [{ samplePendingAsin with
                status := .failed, errorMessage := some "boom" }] }

/-- A failed review job holding one failed item. -/
def sampleFailedReviewJob : ScrapeJob :=
  { sampleCancelledFailedReviewJob with status := .failed }

/-- A failed scan job holding one failed item. -/
def sampleFailedScanJob : ProductScanJob :=
  { sampleRunningScanJob with
    status := .failed
    failedListings := 1
    items := [{ sampleScanItem with
                status := .failed, errorMessage := some "boom" }] }

/-- C9 counterexample: a cancelled Review job with one failed item is
rejected by the retry endpoint (its `valid_job_for_retry` dependency allows
only completed/partial/failed jobs), so "for every job with at least one
failed item, the retry operation resets exactly the failed items" is false
as stated. -/
theorem C9_counterexample :
    sampleCancelledFailedReviewJob.items.countP
        (fun r => r.status == ItemStatus.failed) = 1 ∧
    retryFailedAsinsEndpoint sampleCancelledFailedReviewJob =
      .error "Can only retry failed ASINs on completed/partial/failed jobs" :=
  ⟨by decide, rfl⟩

/-- C9 amended: for a Review job in a retry-eligible state
(completed/partial/failed) — the Scan retry endpoint has no such
restriction — retry with at least one failed item resets exactly the failed
items to pending with their error messages cleared and returns the job to
`queued`; retry with zero failed items is rejected with an error and changes
no job or item state. -/
theorem C9_amended_retry (jr : ScrapeJob) (js : ProductScanJob)
    (hst : jr.status = .completed ∨ jr.status = .partialDone ∨
      jr.status = .failed) :
    (0 < jr.items.countP (fun r => r.status == ItemStatus.failed) →
      retryFailedAsinsEndpoint jr = .ok
        { jr with
          status := .queued
          completedAt := none
          errorMessage := none
          items := jr.items.map fun r =>
            if r.status == ItemStatus.failed then
              { r with status := .pending, errorMessage := none }
            else r }) ∧
    (jr.items.countP (fun r => r.status == ItemStatus.failed) = 0 →
      retryFailedAsinsEndpoint jr = .error "No failed ASINs to retry") ∧
    (0 < js.items.countP (fun it => it.status == ItemStatus.failed) →
      retryScanItemsEndpoint js = .ok
        { js with
          status := .queued
          completedAt := none
          items := js.items.map fun it =>
            if it.status == ItemStatus.failed then
              { it with
                status := .pending
                errorMessage := none
                startedAt := none
                completedAt := none }
            else it }) ∧
    (js.items.countP (fun it => it.status == ItemStatus.failed) = 0 →
      retryScanItemsEndpoint js = .error "No failed items to retry") := by
  have hguard : (jr.status == JobStatus.completed ||
      jr.status == JobStatus.partialDone || jr.status == JobStatus.failed) = true := by
    rcases hst with h | h | h <;> simp [h]
  refine ⟨?_, ?_, ?_, ?_⟩
  · intro hpos
    have hzero : (jr.items.countP (fun r => r.status == ItemStatus.failed) == 0) =
        false := by
      simpa using Nat.pos_iff_ne_zero.mp hpos
    simp [retryFailedAsinsEndpoint, hguard, JobService.retry_failed_asins, hzero]
  · intro hz
    simp [retryFailedAsinsEndpoint, hguard, JobService.retry_failed_asins, hz]
  · intro hpos
    have hzero : (js.items.countP (fun it => it.status == ItemStatus.failed) == 0) =
        false := by
      simpa using Nat.pos_iff_ne_zero.mp hpos
    simp [retryScanItemsEndpoint, ProductScanService.retry_failed_items, hzero,
      hpos]
  · intro hz
    simp [retryScanItemsEndpoint, ProductScanService.retry_failed_items, hz]

/-- Witness for C9 amended: a failed review job and a failed scan job, each
with one failed item, are re-queued with the item reset; an empty failed
review job and an empty scan job are rejected. -/
theorem C9_amended_retry_witness :
    (retryFailedAsinsEndpoint sampleFailedReviewJob = .ok
      { sampleFailedReviewJob with
        status := .queued
        completedAt := none
        errorMessage := none
        items := sampleFailedReviewJob.items.map fun r =>
          if r.status == ItemStatus.failed then
            { r with status := .pending, errorMessage := none }
          else r }) ∧
    (retryScanItemsEndpoint sampleFailedScanJob = .ok
      { sampleFailedScanJob with
        status := .queued
        completedAt := none
        items := sampleFailedScanJob.items.map fun it =>
          if it.status == ItemStatus.failed then
            { it with
              status := .pending
              errorMessage := none
              startedAt := none
              completedAt := none }
          else it }) ∧
    retryFailedAsinsEndpoint { sampleFailedReviewJob with items := [] } =
      .error "No failed ASINs to retry" ∧
    retryScanItemsEndpoint { sampleFailedScanJob with items := [] } =
      .error "No failed items to retry" := by
  have h1 := C9_amended_retry sampleFailedReviewJob sampleFailedScanJob
    (Or.inr (Or.inr (by decide)))
  have h2 := C9_amended_retry { sampleFailedReviewJob with items := [] }
    { sampleFailedScanJob with items := [] } (Or.inr (Or.inr (by decide)))
  exact ⟨h1.1 (by decide), h1.2.2.1 (by decide), h2.2.1 (by decide),
    h2.2.2.2 (by decide)⟩

-- ===========================================================================
-- C8: ASIN recovery and matching of results back to items
-- ===========================================================================

/-- A successful match of the recovery regex captures exactly ten
`[A-Z0-9]` characters, and `/dp/` followed by the capture occurs in the
input. -/
theorem extractAsinChars_spec :
    ∀ (l cs : List Char), extractAsinChars l = some cs →
      cs.length = 10 ∧ cs.all isAsinChar = true ∧
        ('/' :: 'd' :: 'p' :: '/' :: cs) <:+: l := by
  intro l
  induction l with
  | nil => intro cs h; simp [extractAsinChars] at h
  | cons c rest ih =>
    intro cs h
    unfold extractAsinChars at h
    by_cases hc : (c == '/' && rest.take 3 == ['d', 'p', '/']
        && ((rest.drop 3).take 10).length == 10
        && ((rest.drop 3).take 10).all isAsinChar) = true
    · rw [if_pos hc] at h
      have hcs : cs = (rest.drop 3).take 10 := by
        injection h with h2
        exact h2.symm
      simp only [Bool.and_eq_true, beq_iff_eq] at hc
      obtain ⟨⟨⟨hc1, hc2⟩, hc3⟩, hc4⟩ := hc
      subst hcs
      refine ⟨hc3, hc4, ?_⟩
      refine ⟨[], (rest.drop 3).drop 10, ?_⟩
      have hdp : ('d' :: 'p' :: '/' :: rest.drop 3 : List Char) = rest := by
        conv_rhs => rw [← List.take_append_drop 3 rest, hc2]
        rfl
      have htd : (rest.drop 3).take 10 ++ (rest.drop 3).drop 10 = rest.drop 3 :=
        List.take_append_drop 10 (rest.drop 3)
      subst hc1
      simp only [List.nil_append, List.cons_append, List.append_assoc]
      rw [htd, hdp]
    · rw [if_neg hc] at h
      obtain ⟨h1, h2, h3⟩ := ih cs h
      obtain ⟨s, t, hst⟩ := h3
      exact ⟨h1, h2, c :: s, t, by simp [hst]⟩

/-- Every entry of `results_map` comes from an input record, keyed by the
record's own truthy ASIN or — when the ASIN field is falsy and the URL is
nonempty — by the ASIN recovered from the URL. -/
theorem buildResultsMap_mem :
    ∀ (results : List ProductRecord) (acc : List (String × ProductRecord))
      (a : String) (r : ProductRecord),
      (a, r) ∈ results.foldl
        (fun m r =>
          match effectiveAsin r with
          | some a => (a, r) :: m
          | none => m) acc →
      (a, r) ∈ acc ∨ (r ∈ results ∧ effectiveAsin r = some a) := by
  intro results
  induction results with
  | nil => intro acc a r h; exact Or.inl h
  | cons r0 rest ih =>
    intro acc a r h
    simp only [List.foldl_cons] at h
    rcases heff : effectiveAsin r0 with _ | a0
    · rw [heff] at h
      rcases ih acc a r h with h2 | ⟨h2, h3⟩
      · exact Or.inl h2
      · exact Or.inr ⟨List.mem_cons_of_mem _ h2, h3⟩
    · rw [heff] at h
      rcases ih ((a0, r0) :: acc) a r h with h2 | ⟨h2, h3⟩
      · rcases List.mem_cons.mp h2 with h3 | h3
        · obtain ⟨rfl, rfl⟩ := Prod.mk.injEq .. ▸ h3
          injection h3 with h4 h5
          exact Or.inr ⟨List.mem_cons_self .., by rw [heff]⟩
        · exact Or.inl h3
      · exact Or.inr ⟨List.mem_cons_of_mem _ h2, h3⟩

/-- With pairwise-distinct keys, the dict-style "last occurrence" update
degenerates to a plain map. -/
theorem mapLastOcc_eq_map (key : ProductScanItem → String)
    (f : ProductScanItem → ProductScanItem) :
    ∀ (items : List ProductScanItem), (items.map key).Nodup →
      mapLastOcc key f items = items.map f := by
  intro items
  induction items with
  | nil => intro _; rfl
  | cons it rest ih =>
    intro hnd
    simp only [List.map_cons, List.nodup_cons] at hnd
    have hany : rest.any (fun it2 => key it2 == key it) = false := by
      rw [List.any_eq_false]
      intro x hx
      simp only [beq_iff_eq]
      intro hk
      exact hnd.1 (hk ▸ List.mem_map_of_mem key hx)
    simp [mapLastOcc, hany, ih hnd.2]

/-- With pairwise-distinct batch ASINs, each scan item's outcome is computed
from its own results-map lookup, independent of the other items. -/
theorem processScanBatch_get (now : Int) (results : List ProductRecord)
    (items : List ProductScanItem) (i : Nat) (it : ProductScanItem)
    (hnd : (items.map (fun x => x.inputAsin)).Nodup)
    (hit : items[i]? = some it) :
    (processScanBatch now (.ok results) items)[i]? =
      some (scanItemUpdate now (buildResultsMap results)
        (ProductScanService.mark_item_running now it)) := by
  have hkeys : ((items.map (ProductScanService.mark_item_running now)).map
      (fun x => x.inputAsin)).Nodup := by
    rw [List.map_map]
    exact hnd
  have hred : processScanBatch now (.ok results) items =
      mapLastOcc (fun it => it.inputAsin)
        (scanItemUpdate now (buildResultsMap results))
        (items.map (ProductScanService.mark_item_running now)) := rfl
  rw [hred, mapLastOcc_eq_map _ _ _ hkeys, List.map_map, List.getElem?_map, hit]
  rfl

/-- C8: a result record lacking a (truthy) ASIN is keyed in the results map
by the ten-character `[A-Z0-9]` identifier recovered after `/dp/` in its
URL; records are matched back to items by ASIN, each item's outcome depends
only on its own lookup, and an item with no matching record is failed with
the no-result message in both batch families (for Competitor, also bumping
the failed counter). -/
theorem C8_asin_matching
    (url sa : String) (hex : extractAsinFromUrl url = some sa)
    (results : List ProductRecord) (a : String) (r : ProductRecord)
    (hmem : (a, r) ∈ buildResultsMap results)
    (now : Int) (items : List ProductScanItem) (i : Nat) (it : ProductScanItem)
    (hnd : (items.map (fun x => x.inputAsin)).Nodup)
    (hit : items[i]? = some it)
    (hnores : lookupResult (buildResultsMap results) it.inputAsin = none)
    (w : CompWorld) (k : Nat) (citem : CompetitorScrapeItem)
    (hck : w.job.items[k]? = some citem)
    (rm : List (String × ProductRecord))
    (hnoresc : lookupResult rm citem.inputAsin = none) :
    (sa.length = 10 ∧ sa.toList.all isAsinChar = true ∧
      ('/' :: 'd' :: 'p' :: '/' :: sa.toList) <:+: url.toList) ∧
    (r ∈ results ∧
      ((strTruthy r.asin = true ∧ r.asin = some a) ∨
        (strTruthy r.asin = false ∧ r.url ≠ "" ∧
          extractAsinFromUrl r.url = some a))) ∧
    ((processScanBatch now (.ok results) items)[i]? =
      some (ProductScanService.fail_item now "No result returned from Apify"
        (ProductScanService.mark_item_running now it))) ∧
    ((competitorEntryStep now rm w k).job.items[k]? =
        some { citem with
                status := .failed
                errorMessage := some "No result returned from Apify"
                completedAt := some now } ∧
      (competitorEntryStep now rm w k).job.failedCompetitors =
        w.job.failedCompetitors + 1) := by
  refine ⟨?_, ?_, ?_, ?_⟩
  · unfold extractAsinFromUrl at hex
    rcases hch : extractAsinChars url.toList with _ | cs
    · rw [hch] at hex; exact absurd hex (by simp)
    · rw [hch] at hex
      obtain ⟨h1, h2, h3⟩ := extractAsinChars_spec _ _ hch
      have hsa : sa = String.mk cs := by
        injection hex with h4
        exact h4.symm
      subst hsa
      exact ⟨h1, h2, h3⟩
  · rcases buildResultsMap_mem results [] a r hmem with h | ⟨h1, h2⟩
    · exact absurd h (List.not_mem_nil _)
    · refine ⟨h1, ?_⟩
      unfold effectiveAsin at h2
      by_cases ht : strTruthy r.asin = true
      · rw [if_pos ht] at h2
        exact Or.inl ⟨ht, h2⟩
      · rw [Bool.not_eq_true] at ht
        rw [ht] at h2
        simp only [Bool.false_eq_true, if_false] at h2
        by_cases hu : r.url = ""
        · rw [if_neg (by simp [hu])] at h2
          exact absurd h2 (by simp)
        · rw [if_pos hu] at h2
          exact Or.inr ⟨ht, hu, h2⟩
  · rw [processScanBatch_get now results items i it hnd hit]
    unfold scanItemUpdate
    have : (ProductScanService.mark_item_running now it).inputAsin =
        it.inputAsin := rfl
    rw [this, hnores]
  · have hk : k < w.job.items.length := by
      rcases List.getElem?_eq_some.mp hck with ⟨h, _⟩
      exact h
    unfold competitorEntryStep
    simp [hck, hnoresc, setCompItem, List.getElem?_set_self hk]

/-- Witness for C8: a URL-keyed record, an unmatched scan item, and an
unmatched competitor item. -/
theorem C8_asin_matching_witness :
    (("B0ABCDEFGH" : String).length = 10 ∧
      ("B0ABCDEFGH" : String).toList.all isAsinChar = true ∧
      ('/' :: 'd' :: 'p' :: '/' :: ("B0ABCDEFGH" : String).toList) <:+:
        ("https://www.amazon.com/dp/B0ABCDEFGH?th=1" : String).toList) ∧
    ((processScanBatch 6
        (.ok [{ statusCode := 200, statusMessage := none, asin := none,
                url := "https://www.amazon.com/dp/B0ABCDEFGH?th=1",
                title := some "X", productRating := none,
                countReview := none }])
        [sampleScanItem])[0]? =
      some (ProductScanService.fail_item 6 "No result returned from Apify"
        (ProductScanService.mark_item_running 6 sampleScanItem))) ∧
    ((competitorEntryStep 6 []
        { job := sampleRunningCompetitorJob, competitors := [],
          savedData := [], priceHistory := [] } 0).job.items[0]? =
      some { sampleCompetitorItem with
              status := .failed
              errorMessage := some "No result returned from Apify"
              completedAt := some 6 }) := by
  have h := C8_asin_matching
    "https://www.amazon.com/dp/B0ABCDEFGH?th=1" "B0ABCDEFGH" (by decide)
    [{ statusCode := 200, statusMessage := none, asin := none,
       url := "https://www.amazon.com/dp/B0ABCDEFGH?th=1",
       title := some "X", productRating := none, countReview := none }]
    "B0ABCDEFGH"
    { statusCode := 200, statusMessage := none, asin := none,
      url := "https://www.amazon.com/dp/B0ABCDEFGH?th=1",
      title := some "X", productRating := none, countReview := none }
    (by decide)
    6 [sampleScanItem] 0 sampleScanItem (by decide) (by decide) (by decide)
    { job := sampleRunningCompetitorJob, competitors := [],
      savedData := [], priceHistory := [] }
    0 sampleCompetitorItem (by decide) [] (by decide)
  exact ⟨h.1, h.2.2.1, h.2.2.2.1⟩

-- ===========================================================================
-- C7: schedule advancement
-- ===========================================================================

/-- Looking up an id after an id-preserving in-place update returns the
updated row. -/
theorem findCompetitor_update (cs : List Competitor) (cid : Nat)
    (f : Competitor → Competitor) (hf : ∀ c, (f c).id = c.id) :
    findCompetitor (updateCompetitorById cs cid f) cid =
      (findCompetitor cs cid).map f := by
  induction cs with
  | nil => rfl
  | cons c rest ih =>
    unfold findCompetitor updateCompetitorById at *
    cases hc : (c.id == cid) with
    | true =>
      have : ((f c).id == cid) = true := by
        rw [hf c]; exact hc
      simp only [List.map_cons, List.find?_cons, hc, this, if_pos]
      simp [hc, this]
    | false =>
      simp only [List.map_cons, List.find?_cons, hc]
      simp only [hc, Bool.false_eq_true, if_false]
      simpa using ih

/-- The whole-batch failure path never writes competitor rows. -/
theorem failRunningBatch_competitors (now : Int) (e : String) :
    ∀ (batch : List Nat) (w : CompWorld),
      (failRunningBatch now e w batch).competitors = w.competitors := by
  intro batch
  induction batch with
  | nil => intro w; rfl
  | cons i rest ih =>
    intro w
    show (failRunningBatch now e _ rest).competitors = _
    rw [ih]
    rcases hw : w.job.items[i]? with _ | it
    · simp [hw]
    · by_cases h : (it.status == ItemStatus.running) = true <;>
        simp [hw, h, setCompItem]

/-- Marking a batch running never writes competitor rows. -/
theorem markBatchRunning_competitors (now : Int) :
    ∀ (batch : List Nat) (w : CompWorld),
      (markBatchRunning now w batch).competitors = w.competitors := by
  intro batch
  induction batch with
  | nil => intro w; rfl
  | cons i rest ih =>
    intro w
    show (markBatchRunning now _ rest).competitors = _
    rw [ih]
    rcases hw : w.job.items[i]? with _ | it <;> simp [hw, setCompItem]

/-- C7: creating a scheduled Competitor job from the due competitors writes
no competitor row (so `next_scrape_at` is unchanged); `next_scrape_at`
advances exactly when that competitor's item completes successfully, to
"now + schedule interval" (daily = now + 1 day = 1440 minutes); and a
failing item — matched failure or whole-batch provider failure — leaves the
competitor rows untouched, so a due competitor remains due. -/
theorem C7_schedule_advance
    (now : Int) (w : SchedulerWorld)
    (wc : CompWorld) (i : Nat) (item : CompetitorScrapeItem)
    (rm : List (String × ProductRecord)) (r : ProductRecord) (c : Competitor)
    (hit : wc.job.items[i]? = some item)
    (hlook : lookupResult rm item.inputAsin = some r)
    (hsucc : r.statusCode = 200 ∨ strTruthy r.title = true)
    (hfind : findCompetitor wc.competitors item.competitorId = some c)
    (hsch : c.schedule ≠ ScheduleType.none)
    (wf : CompWorld) (k : Nat) (kitem : CompetitorScrapeItem)
    (rmf : List (String × ProductRecord)) (rf : ProductRecord)
    (hkit : wf.job.items[k]? = some kitem)
    (hfail : lookupResult rmf kitem.inputAsin = none ∨
      (lookupResult rmf kitem.inputAsin = some rf ∧ rf.statusCode ≠ 200 ∧
        strTruthy rf.title = false)) :
    ((check_scheduled_competitor_scrapes now w).competitors = w.competitors) ∧
    (findCompetitor (competitorEntryStep now rm wc i).competitors
        item.competitorId =
      some { c with
             nextScrapeAt := some (CompetitorService.calculate_next_scrape now c.schedule) } ∧
      CompetitorService.calculate_next_scrape now ScheduleType.daily =
        now + 1440) ∧
    ((competitorEntryStep now rmf wf k).competitors = wf.competitors ∧
      CompetitorService.get_due_scheduled_competitors now
          (competitorEntryStep now rmf wf k).competitors =
        CompetitorService.get_due_scheduled_competitors now wf.competitors ∧
      (∀ e batch wx, (failRunningBatch now e wx batch).competitors =
        wx.competitors) ∧
      (∀ batch wx, (markBatchRunning now wx batch).competitors =
        wx.competitors)) := by
  have hid : ∀ cx, (CompetitorService.update_next_scrape now cx).id = cx.id := by
    intro cx
    unfold CompetitorService.update_next_scrape
    by_cases h : (cx.schedule != ScheduleType.none) = true <;> simp [h]
  have hcond : (r.statusCode == 200 || strTruthy r.title) = true := by
    rcases hsucc with h | h <;> simp [h]
  have hupd : CompetitorService.update_next_scrape now c =
      { c with
        nextScrapeAt := some (CompetitorService.calculate_next_scrape now c.schedule) } := by
    unfold CompetitorService.update_next_scrape
    simp [bne_iff_ne, hsch]
  refine ⟨?_, ⟨?_, rfl⟩, ?_, ?_, ?_, ?_⟩
  · unfold check_scheduled_competitor_scrapes
    by_cases h : (CompetitorService.get_due_scheduled_competitors now
        w.competitors).isEmpty = true <;> simp [h]
  · have hstep : (competitorEntryStep now rm wc i).competitors =
        updateCompetitorById wc.competitors item.competitorId
          (CompetitorService.update_next_scrape now) := by
      unfold competitorEntryStep
      have hbne : (c.schedule != ScheduleType.none) = true := by
        simpa [bne_iff_ne] using hsch
      simp [hit, hlook, hcond, hfind, hbne, setCompItem]
    rw [hstep, findCompetitor_update _ _ _ hid, hfind]
    simp [hupd]
  · unfold competitorEntryStep
    rcases hfail with h | ⟨h, h2, h3⟩
    · simp [hkit, h, setCompItem]
    · have hcondf : (rf.statusCode == 200 || strTruthy rf.title) = false := by
        simp [h2, h3]
      simp [hkit, h, hcondf, setCompItem]
  · unfold competitorEntryStep
    rcases hfail with h | ⟨h, h2, h3⟩
    · simp [hkit, h, setCompItem]
    · have hcondf : (rf.statusCode == 200 || strTruthy rf.title) = false := by
        simp [h2, h3]
      simp [hkit, h, hcondf, setCompItem]
  · intro e batch wx
    exact failRunningBatch_competitors now e batch wx
  · intro batch wx
    exact markBatchRunning_competitors now batch wx

/-- An active daily-scheduled competitor that is due at time 10. -/
def sampleDailyCompetitor : Competitor :=
  { id := 3
    asin := "B000000001"
    marketplace := "com"
    packSize := some 1
    schedule := .daily
    nextScrapeAt := some 0
    isActive := true }

/-- A successful provider record for the sample competitor's ASIN. -/
def sampleSuccessRecord : ProductRecord :=
  { statusCode := 200
    statusMessage := none
    asin := some "B000000001"
    url := ""
    title := some "Widget"
    productRating := some "4.5 out of 5 stars"
    countReview := some 120 }

/-- The sample competitor world: the one-item running job plus the daily
competitor row. -/
def sampleCompWorld : CompWorld :=
  { job := sampleRunningCompetitorJob
    competitors := [sampleDailyCompetitor]
    savedData := []
    priceHistory := [] }

/-- Witness for C7: the scheduler leaves the due daily competitor untouched;
a successful item completion advances it to now + 1440; a no-result item
leaves it untouched. -/
theorem C7_schedule_advance_witness :
    ((check_scheduled_competitor_scrapes 10
        { competitors := [sampleDailyCompetitor], jobs := [] }).competitors =
      [sampleDailyCompetitor]) ∧
    (findCompetitor
        (competitorEntryStep 10 [("B000000001", sampleSuccessRecord)]
          sampleCompWorld 0).competitors 3 =
      some { sampleDailyCompetitor with
             nextScrapeAt := some (CompetitorService.calculate_next_scrape 10 ScheduleType.daily) }) ∧
    ((competitorEntryStep 10 [] sampleCompWorld 0).competitors =
      [sampleDailyCompetitor]) := by
  have h := C7_schedule_advance 10
    { competitors := [sampleDailyCompetitor], jobs := [] }
    sampleCompWorld 0 sampleCompetitorItem
    [("B000000001", sampleSuccessRecord)] sampleSuccessRecord
    sampleDailyCompetitor (by decide) (by decide) (Or.inl (by decide))
    (by decide) (by decide)
    sampleCompWorld 0 sampleCompetitorItem [] sampleSuccessRecord
    (by decide) (Or.inl (by decide))
  exact ⟨h.1, h.2.1.1, h.2.2.1⟩

-- ===========================================================================
-- C1: job finalization — Review family machinery
-- ===========================================================================

/-- The job counters agree with the actual item statuses (the state
`sync_job_stats` establishes). -/
def countersSynced (j : ScrapeJob) : Prop :=
  j.completedAsins = j.items.countP (fun r => r.status == ItemStatus.completed) ∧
  j.failedAsins = j.items.countP (fun r => r.status == ItemStatus.failed) ∧
  j.totalAsins = j.items.length

theorem sync_countersSynced (j : ScrapeJob) :
    countersSynced (JobService.sync_job_stats j) :=
  ⟨rfl, rfl, rfl⟩

theorem process_asin_terminal (env : AsinEnv) (rec : AsinRecord) :
    (process_asin env rec).status = .completed ∨
      (process_asin env rec).status = .failed := by
  rcases h : env.persistFailure with _ | e
  · exact Or.inl (by simp [process_asin, h])
  · exact Or.inr (by simp [process_asin, h])

/-- Replacing one element swaps its contribution to a `countP`. -/
theorem countP_set_swap {α : Type} (p : α → Bool) (l : List α) (i : Nat)
    (b a : α) (hb : l[i]? = some b) :
    (l.set i a).countP p + (if p b then 1 else 0) =
      l.countP p + (if p a then 1 else 0) := by
  obtain ⟨hi, hbe⟩ := List.getElem?_eq_some.mp hb
  have hcp := List.countP_set p l i a hi
  rw [hbe] at hcp
  have hpos : p b = true → 0 < l.countP p := by
    intro hpb
    exact List.countP_pos_iff.mpr ⟨b, hbe ▸ List.getElem_mem hi, hpb⟩
  by_cases hpb : p b = true
  · have h1 : 0 < l.countP p := hpos hpb
    by_cases hpa : p a = true <;> simp [hpb, hpa] at hcp ⊢ <;> omega
  · by_cases hpa : p a = true <;> simp [hpb, hpa] at hcp ⊢ <;> omega

theorem findPendingIdx_none (items : List AsinRecord)
    (h : Worker.findPendingIdx items = none) :
    items.countP (fun r => r.status == ItemStatus.pending) = 0 := by
  induction items with
  | nil => rfl
  | cons r rest ih =>
    unfold Worker.findPendingIdx at h
    by_cases hp : (r.status == ItemStatus.pending) = true
    · rw [if_pos hp] at h
      exact absurd h (by simp)
    · rw [if_neg hp] at h
      rw [List.countP_cons]
      have h2 : Worker.findPendingIdx rest = none := by
        rcases hrec : Worker.findPendingIdx rest with _ | i
        · rfl
        · rw [hrec] at h
          exact absurd h (by simp)
      rw [ih h2]
      simp [hp]

theorem findPendingIdx_some (items : List AsinRecord) (i : Nat)
    (h : Worker.findPendingIdx items = some i) :
    ∃ r, items[i]? = some r ∧ (r.status == ItemStatus.pending) = true := by
  induction items generalizing i with
  | nil => exact absurd h (by simp [Worker.findPendingIdx])
  | cons r rest ih =>
    unfold Worker.findPendingIdx at h
    by_cases hp : (r.status == ItemStatus.pending) = true
    · rw [if_pos hp] at h
      injection h with h2
      subst h2
      exact ⟨r, by simp, hp⟩
    · rw [if_neg hp] at h
      rcases hrec : Worker.findPendingIdx rest with _ | k
      · rw [hrec] at h
        exact absurd h (by simp)
      · rw [hrec] at h
        injection h with h2
        subst h2
        obtain ⟨x, hx, hpx⟩ := ih k hrec
        exact ⟨x, by simpa using hx, hpx⟩

/-- The `_process_job` drain loop: given enough fuel, it ends with counters
synced and every item terminal (provided no item was `running` to begin
with, which holds for a freshly created job). -/
theorem processJobLoop_spec (envs : Nat → AsinEnv) :
    ∀ (fuel : Nat) (j : ScrapeJob),
      j.items.countP (fun r => r.status == ItemStatus.pending) ≤ fuel →
      countersSynced j →
      (∀ r ∈ j.items, r.status ≠ ItemStatus.running) →
      countersSynced (Worker.processJobLoop envs fuel j) ∧
      (∀ r ∈ (Worker.processJobLoop envs fuel j).items,
        r.status = ItemStatus.completed ∨ r.status = ItemStatus.failed) := by
  intro fuel
  induction fuel with
  | zero =>
    intro j hpend hsync hnr
    have hz : j.items.countP (fun r => r.status == ItemStatus.pending) = 0 :=
      Nat.le_zero.mp hpend
    have hnp := List.countP_eq_zero.mp hz
    refine ⟨hsync, fun r hr => ?_⟩
    have h1 := hnp r hr
    have h2 := hnr r hr
    cases hst : r.status <;> simp_all
  | succ fuel ih =>
    intro j hpend hsync hnr
    rcases hidx : Worker.findPendingIdx j.items with _ | idx
    · have hz := findPendingIdx_none _ hidx
      have hnp := List.countP_eq_zero.mp hz
      have hred : Worker.processJobLoop envs (fuel + 1) j = j := by
        unfold Worker.processJobLoop
        rw [hidx]
      rw [hred]
      refine ⟨hsync, fun r hr => ?_⟩
      have h1 := hnp r hr
      have h2 := hnr r hr
      cases hst : r.status <;> simp_all
    · obtain ⟨r, hr, hpr⟩ := findPendingIdx_some _ _ hidx
      have hred : Worker.processJobLoop envs (fuel + 1) j =
          Worker.processJobLoop envs fuel
            (JobService.sync_job_stats
              { j with items := j.items.set idx (process_asin (envs idx) r) }) := by
        conv_lhs => unfold Worker.processJobLoop
        simp only [hidx, hr]
      rw [hred]
      have hterm := process_asin_terminal (envs idx) r
      have hnewnp : ((process_asin (envs idx) r).status ==
          ItemStatus.pending) = false := by
        rcases hterm with h | h <;> simp [h]
      apply ih
      · have hswap := countP_set_swap (fun x => x.status == ItemStatus.pending)
          j.items idx r (process_asin (envs idx) r) hr
        simp [hpr, hnewnp] at hswap
        show List.countP (fun x => x.status == ItemStatus.pending)
          (j.items.set idx (process_asin (envs idx) r)) ≤ fuel
        omega
      · exact sync_countersSynced _
      · intro x hx
        rcases List.mem_or_eq_of_mem_set hx with h | h
        · exact hnr x h
        · subst h
          rcases hterm with h | h <;> simp [h]

-- ===========================================================================
-- C1/C2: competitor batch machinery
-- ===========================================================================

/-- The competitor job counters agree with the actual item statuses. -/
def eqInvC (w : CompWorld) : Prop :=
  w.job.completedCompetitors =
    w.job.items.countP (fun it => it.status == ItemStatus.completed) ∧
  w.job.failedCompetitors =
    w.job.items.countP (fun it => it.status == ItemStatus.failed)

theorem pendingIdxs_mem (items : List CompetitorScrapeItem) (i : Nat) :
    i ∈ pendingIdxs items ↔
      ∃ it, items[i]? = some it ∧ it.status = ItemStatus.pending := by
  unfold pendingIdxs
  rw [List.mem_filter, List.mem_range]
  constructor
  · rintro ⟨hlt, hp⟩
    rcases hq : items[i]? with _ | it
    · rw [hq] at hp
      exact absurd hp (by simp)
    · rw [hq] at hp
      refine ⟨it, rfl, ?_⟩
      simpa using hp
  · rintro ⟨it, hq, hst⟩
    obtain ⟨hlt, _⟩ := List.getElem?_eq_some.mp hq
    exact ⟨hlt, by rw [hq]; simpa using hst⟩

theorem pendingIdxs_nodup (items : List CompetitorScrapeItem) :
    (pendingIdxs items).Nodup :=
  (List.filter_sublist _).nodup (List.nodup_range _)

theorem lastOccIdxFilter_sublist (key : Nat → String) :
    ∀ (l : List Nat), List.Sublist (lastOccIdxFilter key l) l := by
  intro l
  induction l with
  | nil => exact List.Sublist.refl _
  | cons i rest ih =>
    unfold lastOccIdxFilter
    by_cases h : rest.any (fun j => key j == key i) = true
    · rw [if_pos h]
      exact ih.cons i
    · rw [if_neg h]
      exact ih.cons₂ i

theorem lastOccIdxFilter_eq_self (key : Nat → String) :
    ∀ (l : List Nat), l.Nodup →
      (∀ i ∈ l, ∀ j ∈ l, i ≠ j → key i ≠ key j) →
      lastOccIdxFilter key l = l := by
  intro l
  induction l with
  | nil => intro _ _; rfl
  | cons i rest ih =>
    intro hnd hkeys
    rw [List.nodup_cons] at hnd
    have hany : rest.any (fun j => key j == key i) = false := by
      rw [List.any_eq_false]
      intro j hj
      simp only [beq_iff_eq]
      have hij : i ≠ j := fun h => hnd.1 (h ▸ hj)
      exact hkeys j (by simp [hj]) i (by simp) (fun h => hij h.symm)
    unfold lastOccIdxFilter
    rw [hany]
    simp only [Bool.false_eq_true, if_false]
    rw [ih hnd.2 (fun a ha b hb hab =>
      hkeys a (by simp [ha]) b (by simp [hb]) hab)]

/-- `markBatchRunning` over pairwise-distinct pending indices: every batch
item is running with `started_at` stamped, everything else — items outside
the batch, counters, totals, the job status, the completed/failed counts,
the item count — is unchanged. -/
theorem markBatchRunning_spec (now : Int) :
    ∀ (batch : List Nat) (w : CompWorld), batch.Nodup →
      (∀ i ∈ batch, ∃ it, w.job.items[i]? = some it ∧
        it.status = ItemStatus.pending) →
      (markBatchRunning now w batch).job.items.length = w.job.items.length ∧
      (∀ j, j ∉ batch →
        (markBatchRunning now w batch).job.items[j]? = w.job.items[j]?) ∧
      (∀ i ∈ batch, ∀ it, w.job.items[i]? = some it →
        (markBatchRunning now w batch).job.items[i]? =
          some { it with status := .running, startedAt := some now }) ∧
      (markBatchRunning now w batch).job.completedCompetitors =
        w.job.completedCompetitors ∧
      (markBatchRunning now w batch).job.failedCompetitors =
        w.job.failedCompetitors ∧
      (markBatchRunning now w batch).job.totalCompetitors =
        w.job.totalCompetitors ∧
      (markBatchRunning now w batch).job.status = w.job.status ∧
      (markBatchRunning now w batch).job.items.countP
          (fun it => it.status == ItemStatus.completed) =
        w.job.items.countP (fun it => it.status == ItemStatus.completed) ∧
      (markBatchRunning now w batch).job.items.countP
          (fun it => it.status == ItemStatus.failed) =
        w.job.items.countP (fun it => it.status == ItemStatus.failed) := by
  intro batch
  induction batch with
  | nil =>
    intro w _ _
    exact ⟨rfl, fun j _ => rfl, fun i hi => absurd hi (List.not_mem_nil i),
      rfl, rfl, rfl, rfl, rfl, rfl⟩
  | cons i rest ih =>
    intro w hnd hpend
    rw [List.nodup_cons] at hnd
    obtain ⟨it0, hit0, hp0⟩ := hpend i (by simp)
    obtain ⟨hi0, _⟩ := List.getElem?_eq_some.mp hit0
    have hstep : markBatchRunning now w (i :: rest) =
        markBatchRunning now
          (setCompItem w i { it0 with status := .running, startedAt := some now })
          rest := by
      unfold markBatchRunning
      simp only [List.foldl_cons, hit0]
    set w1 := setCompItem w i
      { it0 with status := .running, startedAt := some now } with hw1
    have hw1items : w1.job.items =
        w.job.items.set i { it0 with status := .running, startedAt := some now } :=
      rfl
    have hpend1 : ∀ k ∈ rest, ∃ it, w1.job.items[k]? = some it ∧
        it.status = ItemStatus.pending := by
      intro k hk
      obtain ⟨it, hitk, hpk⟩ := hpend k (by simp [hk])
      have hik : i ≠ k := fun h => hnd.1 (h ▸ hk)
      exact ⟨it, by rw [hw1items, List.getElem?_set_ne hik]; exact hitk, hpk⟩
    obtain ⟨c1, c2, c3, c4, c5, c6, c7, c8, c9⟩ := ih w1 hnd.2 hpend1
    rw [hstep]
    have hcnt : ∀ (p : CompetitorScrapeItem → Bool),
        p { it0 with status := .running, startedAt := some now } = p it0 →
        w1.job.items.countP p = w.job.items.countP p := by
      intro p hpeq
      have hs := countP_set_swap p w.job.items i it0
        { it0 with status := .running, startedAt := some now } hit0
      rw [hpeq] at hs
      rw [hw1items]
      by_cases hpi : p it0 = true <;> simp [hpi] at hs <;> omega
    refine ⟨?_, ?_, ?_, ?_, ?_, ?_, ?_, ?_, ?_⟩
    · rw [c1, hw1items, List.length_set]
    · intro j hj
      have hjr : j ∉ rest := fun h => hj (by simp [h])
      have hji : i ≠ j := fun h => hj (by simp [h])
      rw [c2 j hjr, hw1items, List.getElem?_set_ne hji]
    · intro k hk it hitk
      rcases List.mem_cons.mp hk with rfl | hkr
      · have hie : it0 = it := by
          rw [hit0] at hitk
          injection hitk
        subst hie
        rw [c2 k hnd.1, hw1items, List.getElem?_set_self hi0]
      · have hik : i ≠ k := fun h => hnd.1 (h ▸ hkr)
        exact c3 k hkr it
          (by rw [hw1items, List.getElem?_set_ne hik]; exact hitk)
    · exact c4
    · exact c5
    · exact c6
    · exact c7
    · rw [c8]
      exact hcnt _ (by simp [hp0])
    · rw [c9]
      exact hcnt _ (by simp [hp0])

/-- One `item_map` entry of `_process_competitor_batch` leaves the job's
items set at its own index to a terminal item with the same ASIN, bumps
exactly the counter matching the new status, and touches no other job
field. -/
theorem competitorEntryStep_spec (now : Int)
    (rm : List (String × ProductRecord)) (w : CompWorld) (i : Nat)
    (item : CompetitorScrapeItem) (hit : w.job.items[i]? = some item) :
    ∃ it2, (it2.status = ItemStatus.completed ∨ it2.status = ItemStatus.failed) ∧
      it2.inputAsin = item.inputAsin ∧
      (competitorEntryStep now rm w i).job.items = w.job.items.set i it2 ∧
      (competitorEntryStep now rm w i).job.completedCompetitors =
        w.job.completedCompetitors +
          (if it2.status == ItemStatus.completed then 1 else 0) ∧
      (competitorEntryStep now rm w i).job.failedCompetitors =
        w.job.failedCompetitors +
          (if it2.status == ItemStatus.failed then 1 else 0) ∧
      (competitorEntryStep now rm w i).job.totalCompetitors =
        w.job.totalCompetitors ∧
      (competitorEntryStep now rm w i).job.status = w.job.status := by
  unfold competitorEntryStep
  rcases hlook : lookupResult rm item.inputAsin with _ | r
  · refine ⟨{ item with
        status := .failed
        errorMessage := some "No result returned from Apify"
        completedAt := some now }, Or.inr rfl, rfl, ?_⟩
    simp [hit, hlook, setCompItem]
  · by_cases hcond : (r.statusCode == 200 || strTruthy r.title) = true
    · refine ⟨{ item with status := .completed, completedAt := some now },
        Or.inl rfl, rfl, ?_⟩
      rcases hcomp : findCompetitor w.competitors item.competitorId with _ | c
      · simp [hit, hlook, hcond, hcomp, setCompItem]
      · by_cases hsch : c.schedule = ScheduleType.none
        · simp [hit, hlook, hcond, hcomp, hsch, setCompItem]
        · simp [hit, hlook, hcond, hcomp, hsch, setCompItem]
    · refine ⟨{ item with
        status := .failed
        errorMessage :=
          some (r.statusMessage.getD ("Status code: " ++ toString r.statusCode))
        completedAt := some now }, Or.inr rfl, rfl, ?_⟩
      simp [hit, hlook, hcond, setCompItem]

/-- Folding the entry step over pairwise-distinct running indices: each
entry index ends terminal with its ASIN preserved, other items are
unchanged, and the counter deltas equal the status-count deltas. -/
theorem entriesFold_spec (now : Int) (rm : List (String × ProductRecord)) :
    ∀ (es : List Nat) (w : CompWorld), es.Nodup →
      (∀ i ∈ es, ∃ it, w.job.items[i]? = some it ∧
        it.status = ItemStatus.running) →
      (es.foldl (competitorEntryStep now rm) w).job.items.length =
        w.job.items.length ∧
      (∀ j, j ∉ es →
        (es.foldl (competitorEntryStep now rm) w).job.items[j]? =
          w.job.items[j]?) ∧
      (∀ i ∈ es, ∀ it, w.job.items[i]? = some it →
        ∃ it2, (es.foldl (competitorEntryStep now rm) w).job.items[i]? =
            some it2 ∧
          (it2.status = ItemStatus.completed ∨ it2.status = ItemStatus.failed) ∧
          it2.inputAsin = it.inputAsin) ∧
      (∃ dc df,
        (es.foldl (competitorEntryStep now rm) w).job.completedCompetitors =
          w.job.completedCompetitors + dc ∧
        (es.foldl (competitorEntryStep now rm) w).job.items.countP
            (fun it => it.status == ItemStatus.completed) =
          w.job.items.countP (fun it => it.status == ItemStatus.completed) + dc ∧
        (es.foldl (competitorEntryStep now rm) w).job.failedCompetitors =
          w.job.failedCompetitors + df ∧
        (es.foldl (competitorEntryStep now rm) w).job.items.countP
            (fun it => it.status == ItemStatus.failed) =
          w.job.items.countP (fun it => it.status == ItemStatus.failed) + df) ∧
      (es.foldl (competitorEntryStep now rm) w).job.totalCompetitors =
        w.job.totalCompetitors ∧
      (es.foldl (competitorEntryStep now rm) w).job.status = w.job.status := by
  intro es
  induction es with
  | nil =>
    intro w _ _
    exact ⟨rfl, fun j _ => rfl,
      fun i hi => absurd hi (List.not_mem_nil i),
      ⟨0, 0, rfl, rfl, rfl, rfl⟩, rfl, rfl⟩
  | cons i rest ih =>
    intro w hnd hrun
    rw [List.nodup_cons] at hnd
    obtain ⟨it0, hit0, hr0⟩ := hrun i (by simp)
    obtain ⟨hi0, _⟩ := List.getElem?_eq_some.mp hit0
    obtain ⟨it2, hterm2, hasin2, hitems2, hdc2, hdf2, htot2, hst2⟩ :=
      competitorEntryStep_spec now rm w i it0 hit0
    set w1 := competitorEntryStep now rm w i with hw1
    have hstep : (i :: rest).foldl (competitorEntryStep now rm) w =
        rest.foldl (competitorEntryStep now rm) w1 := rfl
    have hrun1 : ∀ k ∈ rest, ∃ it, w1.job.items[k]? = some it ∧
        it.status = ItemStatus.running := by
      intro k hk
      obtain ⟨it, hitk, hrk⟩ := hrun k (by simp [hk])
      have hik : i ≠ k := fun h => hnd.1 (h ▸ hk)
      exact ⟨it, by rw [hitems2, List.getElem?_set_ne hik]; exact hitk, hrk⟩
    obtain ⟨c1, c2, c3, ⟨dc, df, d1, d2, d3, d4⟩, c5, c6⟩ := ih w1 hnd.2 hrun1
    rw [hstep]
    have hpc0 : (it0.status == ItemStatus.completed) = false := by simp [hr0]
    have hpf0 : (it0.status == ItemStatus.failed) = false := by simp [hr0]
    have hsw_c := countP_set_swap (fun x => x.status == ItemStatus.completed)
      w.job.items i it0 it2 hit0
    have hsw_f := countP_set_swap (fun x => x.status == ItemStatus.failed)
      w.job.items i it0 it2 hit0
    refine ⟨?_, ?_, ?_, ?_, ?_, ?_⟩
    · rw [c1, hitems2, List.length_set]
    · intro j hj
      have hjr : j ∉ rest := fun h => hj (by simp [h])
      have hji : i ≠ j := fun h => hj (by simp [h])
      rw [c2 j hjr, hitems2, List.getElem?_set_ne hji]
    · intro k hk it hitk
      rcases List.mem_cons.mp hk with rfl | hkr
      · have hie : it0 = it := by
          rw [hit0] at hitk
          injection hitk
        refine ⟨it2, ?_, hterm2, hie ▸ hasin2⟩
        rw [c2 k hnd.1, hitems2, List.getElem?_set_self hi0]
      · have hik : i ≠ k := fun h => hnd.1 (h ▸ hkr)
        exact c3 k hkr it
          (by rw [hitems2, List.getElem?_set_ne hik]; exact hitk)
    · rcases hterm2 with h2c | h2f
      · refine ⟨dc + 1, df, ?_, ?_, ?_, ?_⟩
        · rw [d1, hdc2]
          simp [h2c]
          omega
        · rw [d2, hitems2]
          simp [h2c, hpc0] at hsw_c
          omega
        · rw [d3, hdf2]
          simp [h2c]
        · rw [d4, hitems2]
          have h2nf : (it2.status == ItemStatus.failed) = false := by
            simp [h2c]
          simp [h2nf, hpf0] at hsw_f
          omega
      · refine ⟨dc, df + 1, ?_, ?_, ?_, ?_⟩
        · rw [d1, hdc2]
          have h2nc : (it2.status == ItemStatus.completed) = false := by
            simp [h2f]
          simp [h2nc]
        · rw [d2, hitems2]
          have h2nc : (it2.status == ItemStatus.completed) = false := by
            simp [h2f]
          simp [h2nc, hpc0] at hsw_c
          omega
        · rw [d3, hdf2]
          simp [h2f]
          omega
        · rw [d4, hitems2]
          simp [h2f, hpf0] at hsw_f
          omega
    · rw [c5, htot2]
    · rw [c6, hst2]

/-- The whole-batch failure path over pairwise-distinct running indices:
every batch item becomes failed with the exception text (ASIN preserved),
other items are unchanged, `failed_competitors` grows by exactly the number
of newly failed items and counts match, and nothing else changes. -/
theorem failRunningBatch_spec (now : Int) (e : String) :
    ∀ (batch : List Nat) (w : CompWorld), batch.Nodup →
      (∀ i ∈ batch, ∃ it, w.job.items[i]? = some it ∧
        it.status = ItemStatus.running) →
      (failRunningBatch now e w batch).job.items.length =
        w.job.items.length ∧
      (∀ j, j ∉ batch →
        (failRunningBatch now e w batch).job.items[j]? = w.job.items[j]?) ∧
      (∀ i ∈ batch, ∀ it, w.job.items[i]? = some it →
        (failRunningBatch now e w batch).job.items[i]? =
          some { it with
                  status := .failed
                  errorMessage := some e
                  completedAt := some now }) ∧
      (∃ df,
        (failRunningBatch now e w batch).job.failedCompetitors =
          w.job.failedCompetitors + df ∧
        (failRunningBatch now e w batch).job.items.countP
            (fun it => it.status == ItemStatus.failed) =
          w.job.items.countP (fun it => it.status == ItemStatus.failed) + df) ∧
      (failRunningBatch now e w batch).job.completedCompetitors =
        w.job.completedCompetitors ∧
      (failRunningBatch now e w batch).job.items.countP
          (fun it => it.status == ItemStatus.completed) =
        w.job.items.countP (fun it => it.status == ItemStatus.completed) ∧
      (failRunningBatch now e w batch).job.totalCompetitors =
        w.job.totalCompetitors ∧
      (failRunningBatch now e w batch).job.status = w.job.status := by
  intro batch
  induction batch with
  | nil =>
    intro w _ _
    exact ⟨rfl, fun j _ => rfl,
      fun i hi => absurd hi (List.not_mem_nil i),
      ⟨0, rfl, rfl⟩, rfl, rfl, rfl, rfl⟩
  | cons i rest ih =>
    intro w hnd hrun
    rw [List.nodup_cons] at hnd
    obtain ⟨it0, hit0, hr0⟩ := hrun i (by simp)
    obtain ⟨hi0, _⟩ := List.getElem?_eq_some.mp hit0
    have hg0 : (it0.status == ItemStatus.running) = true := by simp [hr0]
    set itF : CompetitorScrapeItem :=
      { it0 with
        status := .failed
        errorMessage := some e
        completedAt := some now } with hitF
    have hstep : failRunningBatch now e w (i :: rest) =
        failRunningBatch now e
          { setCompItem w i itF with job :=
              { (setCompItem w i itF).job with
                failedCompetitors := (setCompItem w i itF).job.failedCompetitors + 1 } }
          rest := by
      unfold failRunningBatch
      simp only [List.foldl_cons, hit0, hg0, if_true]
    set w1 : CompWorld :=
      { setCompItem w i itF with job :=
          { (setCompItem w i itF).job with
            failedCompetitors := (setCompItem w i itF).job.failedCompetitors + 1 } }
      with hw1def
    have hw1items : w1.job.items = w.job.items.set i itF := rfl
    have hrun1 : ∀ k ∈ rest, ∃ it, w1.job.items[k]? = some it ∧
        it.status = ItemStatus.running := by
      intro k hk
      obtain ⟨it, hitk, hrk⟩ := hrun k (by simp [hk])
      have hik : i ≠ k := fun h => hnd.1 (h ▸ hk)
      exact ⟨it, by rw [hw1items, List.getElem?_set_ne hik]; exact hitk, hrk⟩
    obtain ⟨c1, c2, c3, ⟨df, d1, d2⟩, c5, c6, c7, c8⟩ := ih w1 hnd.2 hrun1
    rw [hstep]
    have hpc0 : (it0.status == ItemStatus.completed) = false := by simp [hr0]
    have hpf0 : (it0.status == ItemStatus.failed) = false := by simp [hr0]
    have hsw_c := countP_set_swap (fun x => x.status == ItemStatus.completed)
      w.job.items i it0 itF hit0
    have hsw_f := countP_set_swap (fun x => x.status == ItemStatus.failed)
      w.job.items i it0 itF hit0
    have hFc : (itF.status == ItemStatus.completed) = false := by simp [hitF]
    have hFf : (itF.status == ItemStatus.failed) = true := by simp [hitF]
    refine ⟨?_, ?_, ?_, ?_, ?_, ?_, ?_, ?_⟩
    · rw [c1, hw1items, List.length_set]
    · intro j hj
      have hjr : j ∉ rest := fun h => hj (by simp [h])
      have hji : i ≠ j := fun h => hj (by simp [h])
      rw [c2 j hjr, hw1items, List.getElem?_set_ne hji]
    · intro k hk it hitk
      rcases List.mem_cons.mp hk with rfl | hkr
      · have hie : it0 = it := by
          rw [hit0] at hitk
          injection hitk
        rw [c2 k hnd.1, hw1items, List.getElem?_set_self hi0, ← hie]
      · have hik : i ≠ k := fun h => hnd.1 (h ▸ hkr)
        exact c3 k hkr it
          (by rw [hw1items, List.getElem?_set_ne hik]; exact hitk)
    · refine ⟨df + 1, ?_, ?_⟩
      · rw [d1]
        show (setCompItem w i itF).job.failedCompetitors + 1 + df = _
        have : (setCompItem w i itF).job.failedCompetitors =
            w.job.failedCompetitors := rfl
        omega
      · rw [d2, hw1items]
        simp [hFf, hpf0] at hsw_f
        omega
    · rw [c5]
      rfl
    · rw [c6, hw1items]
      simp [hFc, hpc0] at hsw_c
      omega
    · rw [c7]
      rfl
    · rw [c8]
      rfl

/-- `_process_competitor_batch` over a pairwise-distinct pending batch:
items outside the batch are unchanged, every batch item leaves `pending`
with its ASIN intact, and the two counters grow by exactly the respective
status-count deltas; the job status and totals are untouched. -/
theorem processCompetitorBatch_spec (now : Int)
    (resE : Except String (List ProductRecord)) (w : CompWorld)
    (batch : List Nat) (hnd : batch.Nodup)
    (hpend : ∀ i ∈ batch, ∃ it, w.job.items[i]? = some it ∧
      it.status = ItemStatus.pending) :
    (processCompetitorBatch now resE w batch).job.items.length =
      w.job.items.length ∧
    (∀ j, j ∉ batch →
      (processCompetitorBatch now resE w batch).job.items[j]? =
        w.job.items[j]?) ∧
    (∀ i ∈ batch, ∀ it, w.job.items[i]? = some it →
      ∃ it2, (processCompetitorBatch now resE w batch).job.items[i]? =
          some it2 ∧
        it2.status ≠ ItemStatus.pending ∧ it2.inputAsin = it.inputAsin) ∧
    (∃ dc df,
      (processCompetitorBatch now resE w batch).job.completedCompetitors =
        w.job.completedCompetitors + dc ∧
      (processCompetitorBatch now resE w batch).job.items.countP
          (fun it => it.status == ItemStatus.completed) =
        w.job.items.countP (fun it => it.status == ItemStatus.completed) + dc ∧
      (processCompetitorBatch now resE w batch).job.failedCompetitors =
        w.job.failedCompetitors + df ∧
      (processCompetitorBatch now resE w batch).job.items.countP
          (fun it => it.status == ItemStatus.failed) =
        w.job.items.countP (fun it => it.status == ItemStatus.failed) + df) ∧
    (processCompetitorBatch now resE w batch).job.totalCompetitors =
      w.job.totalCompetitors ∧
    (processCompetitorBatch now resE w batch).job.status = w.job.status := by
  obtain ⟨m1, m2, m3, m4, m5, m6, m7, m8, m9⟩ :=
    markBatchRunning_spec now batch w hnd hpend
  set w1 := markBatchRunning now w batch with hw1
  have hrun1 : ∀ i ∈ batch, ∃ it, w1.job.items[i]? = some it ∧
      it.status = ItemStatus.running := by
    intro i hi
    obtain ⟨it, hit, _⟩ := hpend i hi
    exact ⟨{ it with status := .running, startedAt := some now },
      m3 i hi it hit, rfl⟩
  cases resE with
  | error e =>
    have hredE : processCompetitorBatch now (.error e) w batch =
        failRunningBatch now e w1 batch := rfl
    obtain ⟨f1, f2, f3, ⟨df, fd1, fd2⟩, f5, f6, f7, f8⟩ :=
      failRunningBatch_spec now e batch w1 hnd hrun1
    rw [hredE]
    refine ⟨f1.trans m1, ?_, ?_, ⟨0, df, ?_, ?_, ?_, ?_⟩, f7.trans m6,
      f8.trans m7⟩
    · intro j hj
      rw [f2 j hj, m2 j hj]
    · intro i hi it hit
      refine ⟨{ it with
          status := .failed, startedAt := some now, errorMessage := some e,
          completedAt := some now }, ?_, by simp, rfl⟩
      have := f3 i hi _ (m3 i hi it hit)
      simpa using this
    · simp [f5, m4]
    · simp [f6, m8]
    · rw [fd1, m5]
    · rw [fd2, m9]
  | ok results =>
    set es := lastOccIdxFilter (asinAt w1.job.items) batch with hes
    have hsub : ∀ i ∈ es, i ∈ batch :=
      fun i hi => (lastOccIdxFilter_sublist _ batch).subset hi
    have hesnd : es.Nodup := (lastOccIdxFilter_sublist _ batch).nodup hnd
    have hrunes : ∀ i ∈ es, ∃ it, w1.job.items[i]? = some it ∧
        it.status = ItemStatus.running :=
      fun i hi => hrun1 i (hsub i hi)
    have hredO : processCompetitorBatch now (.ok results) w batch =
        es.foldl (competitorEntryStep now (buildResultsMap results)) w1 := rfl
    obtain ⟨e1, e2, e3, ⟨dc, df, ed1, ed2, ed3, ed4⟩, e5, e6⟩ :=
      entriesFold_spec now (buildResultsMap results) es w1 hesnd hrunes
    rw [hredO]
    refine ⟨e1.trans m1, ?_, ?_, ⟨dc, df, ?_, ?_, ?_, ?_⟩, e5.trans m6,
      e6.trans m7⟩
    · intro j hj
      have hje : j ∉ es := fun h => hj (hsub j h)
      rw [e2 j hje, m2 j hj]
    · intro i hi it hit
      by_cases hie : i ∈ es
      · obtain ⟨it2, h1, h2, h3⟩ := e3 i hie _ (m3 i hi it hit)
        refine ⟨it2, h1, ?_, by simpa using h3⟩
        rcases h2 with h | h <;> simp [h]
      · refine ⟨{ it with status := .running, startedAt := some now },
          ?_, by simp, rfl⟩
        rw [e2 i hie]
        exact m3 i hi it hit
    · rw [ed1, m4]
    · rw [ed2, m8]
    · rw [ed3, m5]
    · rw [ed4, m9]

/-- With pairwise-distinct batch ASINs, every batch item of a successful
batch is processed (the `item_map` keeps each ASIN once) and ends terminal. -/
theorem processCompetitorBatch_terminal (now : Int)
    (resE : Except String (List ProductRecord)) (w : CompWorld)
    (batch : List Nat) (hnd : batch.Nodup)
    (hpend : ∀ i ∈ batch, ∃ it, w.job.items[i]? = some it ∧
      it.status = ItemStatus.pending)
    (hkeys : ∀ i ∈ batch, ∀ j ∈ batch, i ≠ j →
      asinAt w.job.items i ≠ asinAt w.job.items j) :
    ∀ i ∈ batch, ∀ it, w.job.items[i]? = some it →
      ∃ it2, (processCompetitorBatch now resE w batch).job.items[i]? =
          some it2 ∧
        (it2.status = ItemStatus.completed ∨ it2.status = ItemStatus.failed) ∧
        it2.inputAsin = it.inputAsin := by
  obtain ⟨m1, m2, m3, m4, m5, m6, m7, m8, m9⟩ :=
    markBatchRunning_spec now batch w hnd hpend
  set w1 := markBatchRunning now w batch with hw1
  have hrun1 : ∀ i ∈ batch, ∃ it, w1.job.items[i]? = some it ∧
      it.status = ItemStatus.running := by
    intro i hi
    obtain ⟨it, hit, _⟩ := hpend i hi
    exact ⟨{ it with status := .running, startedAt := some now },
      m3 i hi it hit, rfl⟩
  have hasin1 : ∀ i ∈ batch, asinAt w1.job.items i = asinAt w.job.items i := by
    intro i hi
    obtain ⟨it, hit, _⟩ := hpend i hi
    unfold asinAt
    rw [hit, m3 i hi it hit]
    rfl
  cases resE with
  | error e =>
    obtain ⟨f1, f2, f3, fd, f5, f6, f7, f8⟩ :=
      failRunningBatch_spec now e batch w1 hnd hrun1
    intro i hi it hit
    refine ⟨{ it with
        status := .failed, startedAt := some now, errorMessage := some e,
        completedAt := some now }, ?_, Or.inr rfl, rfl⟩
    have := f3 i hi _ (m3 i hi it hit)
    simpa using this
  | ok results =>
    have hkeys1 : ∀ i ∈ batch, ∀ j ∈ batch, i ≠ j →
        asinAt w1.job.items i ≠ asinAt w1.job.items j := by
      intro i hi j hj hij
      rw [hasin1 i hi, hasin1 j hj]
      exact hkeys i hi j hj hij
    have heseq : lastOccIdxFilter (asinAt w1.job.items) batch = batch :=
      lastOccIdxFilter_eq_self _ batch hnd hkeys1
    have hredO : processCompetitorBatch now (.ok results) w batch =
        batch.foldl (competitorEntryStep now (buildResultsMap results)) w1 := by
      show (lastOccIdxFilter (asinAt w1.job.items) batch).foldl
          (competitorEntryStep now (buildResultsMap results)) w1 =
        batch.foldl (competitorEntryStep now (buildResultsMap results)) w1
      rw [heseq]
    obtain ⟨e1, e2, e3, ed, e5, e6⟩ :=
      entriesFold_spec now (buildResultsMap results) batch w1 hnd hrun1
    intro i hi it hit
    obtain ⟨it2, h1, h2, h3⟩ := e3 i hi _ (m3 i hi it hit)
    rw [hredO]
    exact ⟨it2, h1, h2, by simpa using h3⟩

/-- The batch drain loop of `_process_competitor_scrape_job`: starting from
a job whose counters match the item statuses, with no running item and
pairwise-distinct item ASINs, enough fuel drains every item to a terminal
state with the counters still matching; job status and totals are
untouched by the loop. -/
theorem competitorLoop_spec (benv : Nat → Except String (List ProductRecord))
    (now : Int) :
    ∀ (fuel : Nat) (batchNo : Nat) (w : CompWorld),
      (pendingIdxs w.job.items).length ≤ fuel →
      eqInvC w →
      (∀ r ∈ w.job.items, r.status ≠ ItemStatus.running) →
      (w.job.items.map (fun it => it.inputAsin)).Nodup →
      eqInvC (competitorLoop benv now fuel batchNo w) ∧
      (∀ r ∈ (competitorLoop benv now fuel batchNo w).job.items,
        r.status = ItemStatus.completed ∨ r.status = ItemStatus.failed) ∧
      (competitorLoop benv now fuel batchNo w).job.totalCompetitors =
        w.job.totalCompetitors ∧
      (competitorLoop benv now fuel batchNo w).job.status = w.job.status := by
  intro fuel
  induction fuel with
  | zero =>
    intro batchNo w hfuel hinv hnr _
    have hpe : pendingIdxs w.job.items = [] :=
      List.length_eq_zero.mp (Nat.le_zero.mp hfuel)
    refine ⟨hinv, fun r hr => ?_, rfl, rfl⟩
    obtain ⟨i, hri⟩ := List.mem_iff_getElem?.mp hr
    cases hst : r.status with
    | pending =>
      have : i ∈ pendingIdxs w.job.items :=
        (pendingIdxs_mem _ _).mpr ⟨r, hri, hst⟩
      rw [hpe] at this
      exact absurd this (List.not_mem_nil i)
    | running => exact absurd hst (hnr r hr)
    | completed => exact Or.inl rfl
    | failed => exact Or.inr rfl
  | succ fuel ih =>
    intro batchNo w hfuel hinv hnr hasins
    rcases hpe : pendingIdxs w.job.items with _ | ⟨p, ps⟩
    · have hred : competitorLoop benv now (fuel + 1) batchNo w = w := by
        unfold competitorLoop
        rw [hpe]
        rfl
      rw [hred]
      refine ⟨hinv, fun r hr => ?_, rfl, rfl⟩
      obtain ⟨i, hri⟩ := List.mem_iff_getElem?.mp hr
      cases hst : r.status with
      | pending =>
        have : i ∈ pendingIdxs w.job.items :=
          (pendingIdxs_mem _ _).mpr ⟨r, hri, hst⟩
        rw [hpe] at this
        exact absurd this (List.not_mem_nil i)
      | running => exact absurd hst (hnr r hr)
      | completed => exact Or.inl rfl
      | failed => exact Or.inr rfl
    · set batch := (pendingIdxs w.job.items).take COMPETITOR_BATCH_SIZE
        with hbatch
      have hred : competitorLoop benv now (fuel + 1) batchNo w =
          competitorLoop benv now fuel (batchNo + 1)
            (processCompetitorBatch now (benv batchNo) w batch) := by
        conv_lhs => unfold competitorLoop
        simp [hpe, hbatch]
      set w2 := processCompetitorBatch now (benv batchNo) w batch with hw2
      have hbnd : batch.Nodup :=
        (List.take_sublist _ _).nodup (pendingIdxs_nodup _)
      have hbsub : ∀ i ∈ batch, i ∈ pendingIdxs w.job.items :=
        fun i hi => (List.take_sublist _ _).subset hi
      have hbpend : ∀ i ∈ batch, ∃ it, w.job.items[i]? = some it ∧
          it.status = ItemStatus.pending :=
        fun i hi => (pendingIdxs_mem _ _).mp (hbsub i hi)
      have hinj : ∀ i ∈ batch, ∀ j ∈ batch, i ≠ j →
          asinAt w.job.items i ≠ asinAt w.job.items j := by
        intro i hi j hj hij
        obtain ⟨iti, hiti, _⟩ := hbpend i hi
        obtain ⟨itj, hitj, _⟩ := hbpend j hj
        obtain ⟨hli, hgi⟩ := List.getElem?_eq_some.mp hiti
        obtain ⟨hlj, hgj⟩ := List.getElem?_eq_some.mp hitj
        have hmi : i < (w.job.items.map (fun it => it.inputAsin)).length := by
          rw [List.length_map]; exact hli
        have hmj : j < (w.job.items.map (fun it => it.inputAsin)).length := by
          rw [List.length_map]; exact hlj
        have hne2 : (w.job.items.map (fun it => it.inputAsin))[i] ≠
            (w.job.items.map (fun it => it.inputAsin))[j] := by
          intro h
          exact hij ((hasins.getElem_inj_iff).mp h)
        unfold asinAt
        rw [hiti, hitj]
        simpa [List.getElem_map, hgi, hgj] using hne2
      obtain ⟨b1, b2, b3, ⟨dc, df, bd1, bd2, bd3, bd4⟩, b5, b6⟩ :=
        processCompetitorBatch_spec now (benv batchNo) w batch hbnd hbpend
      have bterm := processCompetitorBatch_terminal now (benv batchNo) w batch
        hbnd hbpend hinj
      have hinv2 : eqInvC w2 := by
        obtain ⟨hc, hf⟩ := hinv
        exact ⟨by rw [bd1, bd2, hc], by rw [bd3, bd4, hf]⟩
      have hnr2 : ∀ r ∈ w2.job.items, r.status ≠ ItemStatus.running := by
        intro r hr
        obtain ⟨i, hri⟩ := List.mem_iff_getElem?.mp hr
        by_cases hib : i ∈ batch
        · obtain ⟨it, hit, _⟩ := hbpend i hib
          obtain ⟨it2, h1, h2, _⟩ := bterm i hib it hit
          rw [hri] at h1
          injection h1 with h1
          rw [h1]
          rcases h2 with h | h <;> simp [h]
        · rw [b2 i hib] at hri
          exact hnr r (List.mem_iff_getElem?.mpr ⟨i, hri⟩)
      have hmapeq : w2.job.items.map (fun it => it.inputAsin) =
          w.job.items.map (fun it => it.inputAsin) := by
        apply List.ext_getElem?
        intro n
        rw [List.getElem?_map, List.getElem?_map]
        by_cases hib : n ∈ batch
        · obtain ⟨it, hit, _⟩ := hbpend n hib
          obtain ⟨it2, h1, _, h3⟩ := bterm n hib it hit
          rw [h1, hit]
          simp [h3]
        · rw [b2 n hib]
      have hasins2 : (w2.job.items.map (fun it => it.inputAsin)).Nodup := by
        rw [hmapeq]
        exact hasins
      have hq2 : ∀ a : Nat,
          (match w2.job.items[a]? with
           | some it => it.status == ItemStatus.pending
           | none => false) = true →
          (match w.job.items[a]? with
           | some it => it.status == ItemStatus.pending
           | none => false) = true := by
        intro a ha
        rcases hg : w2.job.items[a]? with _ | it
        · rw [hg] at ha
          exact absurd ha (by simp)
        · rw [hg] at ha
          by_cases hib : a ∈ batch
          · obtain ⟨it0, hit0, _⟩ := hbpend a hib
            obtain ⟨it2, h1, h2, _⟩ := b3 a hib it0 hit0
            rw [hg] at h1
            injection h1 with h1
            simp only [beq_iff_eq] at ha
            exact absurd (h1 ▸ ha) h2
          · rw [b2 a hib] at hg
            rw [hg]
            exact ha
      have hfuel2 : (pendingIdxs w2.job.items).length ≤ fuel := by
        have hp_mem : p ∈ batch := by
          have h50 : COMPETITOR_BATCH_SIZE = 49 + 1 := rfl
          rw [hbatch, hpe, h50, List.take_succ_cons]
          simp
        have hpnot : p ∉ pendingIdxs w2.job.items := by
          intro hcontra
          obtain ⟨it, hit, hp2⟩ := (pendingIdxs_mem _ _).mp hcontra
          obtain ⟨it0, hit0, _⟩ := hbpend p hp_mem
          obtain ⟨it2, h1, h2, _⟩ := b3 p hp_mem it0 hit0
          rw [hit] at h1
          injection h1 with h1
          exact h2 (h1 ▸ hp2)
        have hsubl : List.Sublist (pendingIdxs w2.job.items)
            (pendingIdxs w.job.items) := by
          unfold pendingIdxs
          rw [b1]
          exact List.monotone_filter_right _ hq2
        have hle := hsubl.length_le
        have hneq : (pendingIdxs w2.job.items).length ≠
            (pendingIdxs w.job.items).length := by
          intro heq
          have heq2 := hsubl.eq_of_length heq
          rw [heq2] at hpnot
          exact hpnot (hbsub p hp_mem)
        rw [hpe] at hle hneq
        rw [hpe] at hfuel
        simp only [List.length_cons] at hle hneq hfuel
        omega
      obtain ⟨r1, r2, r3, r4⟩ := ih (batchNo + 1) w2 hfuel2 hinv2 hnr2 hasins2
      rw [hred]
      exact ⟨r1, r2, r3.trans b5, r4.trans b6⟩

/-- The final-status dispatch of `_process_job` keeps counters and items and
maps counters to the final status exactly as claimed. -/
theorem finalizeReviewJob_spec (now : Int) (j : ScrapeJob) :
    (Worker.finalizeReviewJob now j).completedAsins = j.completedAsins ∧
    (Worker.finalizeReviewJob now j).failedAsins = j.failedAsins ∧
    (Worker.finalizeReviewJob now j).totalAsins = j.totalAsins ∧
    (Worker.finalizeReviewJob now j).items = j.items ∧
    (j.failedAsins = 0 →
      (Worker.finalizeReviewJob now j).status = .completed) ∧
    (0 < j.failedAsins → 0 < j.completedAsins →
      (Worker.finalizeReviewJob now j).status = .partialDone) ∧
    (0 < j.failedAsins → j.completedAsins = 0 →
      (Worker.finalizeReviewJob now j).status = .failed) := by
  refine ⟨?_, ?_, ?_, ?_, ?_, ?_, ?_⟩
  · unfold Worker.finalizeReviewJob JobService.complete_job JobService.fail_job
    split <;> first | rfl | split <;> rfl
  · unfold Worker.finalizeReviewJob JobService.complete_job JobService.fail_job
    split <;> first | rfl | split <;> rfl
  · unfold Worker.finalizeReviewJob JobService.complete_job JobService.fail_job
    split <;> first | rfl | split <;> rfl
  · unfold Worker.finalizeReviewJob JobService.complete_job JobService.fail_job
    split <;> first | rfl | split <;> rfl
  · intro h
    simp [Worker.finalizeReviewJob, JobService.complete_job,
      JobService.fail_job, h]
  · intro h1 h2
    simp [Worker.finalizeReviewJob, JobService.complete_job,
      JobService.fail_job, h1, h2]
  · intro h1 h2
    simp [Worker.finalizeReviewJob, JobService.complete_job,
      JobService.fail_job, h1, h2]

/-- The finalization block of `_process_competitor_scrape_job` keeps
counters and items and maps counters to the final status exactly as
claimed. -/
theorem finalizeCompetitorJob_spec (now : Int) (j : CompetitorScrapeJob) :
    (finalizeCompetitorJob now j).completedCompetitors =
      j.completedCompetitors ∧
    (finalizeCompetitorJob now j).failedCompetitors = j.failedCompetitors ∧
    (finalizeCompetitorJob now j).totalCompetitors = j.totalCompetitors ∧
    (finalizeCompetitorJob now j).items = j.items ∧
    (j.failedCompetitors = 0 →
      (finalizeCompetitorJob now j).status = .completed) ∧
    (0 < j.failedCompetitors → 0 < j.completedCompetitors →
      (finalizeCompetitorJob now j).status = .partialDone) ∧
    (0 < j.failedCompetitors → j.completedCompetitors = 0 →
      (finalizeCompetitorJob now j).status = .failed) := by
  refine ⟨rfl, rfl, rfl, rfl, ?_, ?_, ?_⟩
  · intro h
    simp [finalizeCompetitorJob, h]
  · intro h1 h2
    simp [finalizeCompetitorJob, h1, h2]
  · intro h1 h2
    simp [finalizeCompetitorJob, h1, h2, Nat.pos_iff_ne_zero]

/-- The full Review-family run on a freshly created job. -/
def reviewRun (envs : Nat → AsinEnv) (now : Int) (asins : List String) :
    ScrapeJob :=
  Worker.process_job envs now (JobService.create_job asins)

/-- The full Competitor-family run on a freshly created job, in a session
holding the given competitor rows. -/
def competitorRun (benv : Nat → Except String (List ProductRecord))
    (now : Int) (mp : String) (ids : List Nat) (cs : List Competitor) :
    CompWorld :=
  process_competitor_scrape_job benv now
    { job := CompetitorService.create_scrape_job mp ids cs
      competitors := cs
      savedData := []
      priceHistory := [] }

/-- C1: for every family, when job processing finalizes after all items
reached a terminal state, the job's counters equal the actual counts of its
items' statuses, and the job status is `completed` when the failed count is
0, `partial` when both counts are nonzero, and `failed` when the completed
count is 0 and the failed count is nonzero.  Review and Competitor are
stated over a full worker run on a freshly created job (for Competitor,
with pairwise-distinct item ASINs, since duplicate-ASIN items are collapsed
by the `item_map` and would never turn terminal); Scan finalization is
`ProductScanService.complete_job`, which recounts from the item rows. -/
theorem C1_job_finalization
    (envs : Nat → AsinEnv) (now : Int) (asins : List String)
    (now2 : Int) (js : ProductScanJob)
    (benv : Nat → Except String (List ProductRecord)) (cnow : Int)
    (mp : String) (ids : List Nat) (cs : List Competitor)
    (hnd : ((CompetitorService.create_scrape_job mp ids cs).items.map
      (fun it => it.inputAsin)).Nodup) :
    ((reviewRun envs now asins).completedAsins =
        (reviewRun envs now asins).items.countP
          (fun r => r.status == ItemStatus.completed) ∧
      (reviewRun envs now asins).failedAsins =
        (reviewRun envs now asins).items.countP
          (fun r => r.status == ItemStatus.failed) ∧
      (reviewRun envs now asins).totalAsins =
        (reviewRun envs now asins).items.length ∧
      (∀ r ∈ (reviewRun envs now asins).items,
        r.status = ItemStatus.completed ∨ r.status = ItemStatus.failed) ∧
      ((reviewRun envs now asins).failedAsins = 0 →
        (reviewRun envs now asins).status = .completed) ∧
      (0 < (reviewRun envs now asins).failedAsins →
        0 < (reviewRun envs now asins).completedAsins →
        (reviewRun envs now asins).status = .partialDone) ∧
      (0 < (reviewRun envs now asins).failedAsins →
        (reviewRun envs now asins).completedAsins = 0 →
        (reviewRun envs now asins).status = .failed)) ∧
    ((ProductScanService.complete_job now2 js).completedListings =
        js.items.countP (fun it => it.status == ItemStatus.completed) ∧
      (ProductScanService.complete_job now2 js).failedListings =
        js.items.countP (fun it => it.status == ItemStatus.failed) ∧
      (ProductScanService.complete_job now2 js).items = js.items ∧
      (js.items.countP (fun it => it.status == ItemStatus.failed) = 0 →
        (ProductScanService.complete_job now2 js).status = .completed) ∧
      (0 < js.items.countP (fun it => it.status == ItemStatus.failed) →
        0 < js.items.countP (fun it => it.status == ItemStatus.completed) →
        (ProductScanService.complete_job now2 js).status = .partialDone) ∧
      (0 < js.items.countP (fun it => it.status == ItemStatus.failed) →
        js.items.countP (fun it => it.status == ItemStatus.completed) = 0 →
        (ProductScanService.complete_job now2 js).status = .failed)) ∧
    ((competitorRun benv cnow mp ids cs).job.completedCompetitors =
        (competitorRun benv cnow mp ids cs).job.items.countP
          (fun it => it.status == ItemStatus.completed) ∧
      (competitorRun benv cnow mp ids cs).job.failedCompetitors =
        (competitorRun benv cnow mp ids cs).job.items.countP
          (fun it => it.status == ItemStatus.failed) ∧
      (∀ r ∈ (competitorRun benv cnow mp ids cs).job.items,
        r.status = ItemStatus.completed ∨ r.status = ItemStatus.failed) ∧
      ((competitorRun benv cnow mp ids cs).job.failedCompetitors = 0 →
        (competitorRun benv cnow mp ids cs).job.status = .completed) ∧
      (0 < (competitorRun benv cnow mp ids cs).job.failedCompetitors →
        0 < (competitorRun benv cnow mp ids cs).job.completedCompetitors →
        (competitorRun benv cnow mp ids cs).job.status = .partialDone) ∧
      (0 < (competitorRun benv cnow mp ids cs).job.failedCompetitors →
        (competitorRun benv cnow mp ids cs).job.completedCompetitors = 0 →
        (competitorRun benv cnow mp ids cs).job.status = .failed)) := by
  refine ⟨?_, ?_, ?_⟩
  · -- Review family
    set j1 := JobService.start_job now (JobService.create_job asins) with hj1
    have hallp : ∀ r ∈ j1.items, r.status = ItemStatus.pending := by
      intro r hr
      obtain ⟨a, _, rfl⟩ := List.mem_map.mp hr
      rfl
    have hsync1 : countersSynced j1 := by
      refine ⟨?_, ?_, ?_⟩
      · symm
        apply List.countP_eq_zero.mpr
        intro r hr
        simp [hallp r hr]
      · symm
        apply List.countP_eq_zero.mpr
        intro r hr
        simp [hallp r hr]
      · show asins.length = j1.items.length
        simp [hj1, JobService.start_job, JobService.create_job]
    have hnr1 : ∀ r ∈ j1.items, r.status ≠ ItemStatus.running := by
      intro r hr
      simp [hallp r hr]
    obtain ⟨hsync2, hterm2⟩ := processJobLoop_spec envs j1.items.length j1
      (List.countP_le_length _) hsync1 hnr1
    obtain ⟨f1, f2, f3, f4, f5, f6, f7⟩ := finalizeReviewJob_spec now
      (Worker.processJobLoop envs j1.items.length j1)
    have hrun : reviewRun envs now asins =
        Worker.finalizeReviewJob now
          (Worker.processJobLoop envs j1.items.length j1) := rfl
    rw [hrun]
    obtain ⟨s1, s2, s3⟩ := hsync2
    refine ⟨?_, ?_, ?_, ?_, ?_, ?_, ?_⟩
    · rw [f1, f4, s1]
    · rw [f2, f4, s2]
    · rw [f3, f4, s3]
    · intro r hr
      rw [f4] at hr
      exact hterm2 r hr
    · intro h
      rw [f1, f2] at *
      exact f5 h
    · intro h1 h2
      rw [f1, f2] at *
      exact f6 h1 h2
    · intro h1 h2
      rw [f1, f2] at *
      exact f7 h1 h2
  · -- Scan family
    refine ⟨rfl, rfl, rfl, ?_, ?_, ?_⟩
    · intro h
      simp [ProductScanService.complete_job, h]
    · intro h1 h2
      simp [ProductScanService.complete_job, h1, h2]
    · intro h1 h2
      simp [ProductScanService.complete_job, h1, h2, Nat.pos_iff_ne_zero]
  · -- Competitor family
    set w1 : CompWorld :=
      { job := { CompetitorService.create_scrape_job mp ids cs with
                  status := .running, startedAt := some cnow }
        competitors := cs
        savedData := []
        priceHistory := [] } with hw1
    have hitems1 : w1.job.items =
        (CompetitorService.create_scrape_job mp ids cs).items := rfl
    have hallp : ∀ r ∈ w1.job.items, r.status = ItemStatus.pending := by
      intro r hr
      rw [hitems1] at hr
      obtain ⟨cid, _, hsome⟩ := List.mem_filterMap.mp hr
      obtain ⟨c, _, hc⟩ := Option.map_eq_some'.mp hsome
      rw [← hc]
    have hinv1 : eqInvC w1 := by
      constructor
      · symm
        apply List.countP_eq_zero.mpr
        intro r hr
        simp [hallp r hr]
      · symm
        apply List.countP_eq_zero.mpr
        intro r hr
        simp [hallp r hr]
    have hnr1 : ∀ r ∈ w1.job.items, r.status ≠ ItemStatus.running := by
      intro r hr
      simp [hallp r hr]
    have hnd1 : (w1.job.items.map (fun it => it.inputAsin)).Nodup := by
      rw [hitems1]
      exact hnd
    have hfuel1 : (pendingIdxs w1.job.items).length ≤ w1.job.items.length := by
      have h := List.length_filter_le
        (fun i => match w1.job.items[i]? with
          | some it => it.status == ItemStatus.pending
          | none => false)
        (List.range w1.job.items.length)
      rw [List.length_range] at h
      exact h
    obtain ⟨r1, r2, r3, r4⟩ := competitorLoop_spec benv cnow
      w1.job.items.length 0 w1 hfuel1 hinv1 hnr1 hnd1
    obtain ⟨f1, f2, f3, f4, f5, f6, f7⟩ := finalizeCompetitorJob_spec cnow
      (competitorLoop benv cnow w1.job.items.length 0 w1).job
    have hrun : competitorRun benv cnow mp ids cs =
        { competitorLoop benv cnow w1.job.items.length 0 w1 with
          job := finalizeCompetitorJob cnow
            (competitorLoop benv cnow w1.job.items.length 0 w1).job } := rfl
    rw [hrun]
    obtain ⟨i1, i2⟩ := r1
    refine ⟨?_, ?_, ?_, ?_, ?_, ?_⟩
    · show (finalizeCompetitorJob cnow _).completedCompetitors = _
      rw [f1, f4, i1]
    · show (finalizeCompetitorJob cnow _).failedCompetitors = _
      rw [f2, f4, i2]
    · intro r hr
      have hr2 : r ∈ (competitorLoop benv cnow w1.job.items.length 0
          w1).job.items := by
        rw [← f4]
        exact hr
      exact r2 r hr2
    · intro h
      have h2 : (competitorLoop benv cnow w1.job.items.length 0
          w1).job.failedCompetitors = 0 := by
        rw [← f2]
        exact h
      exact f5 h2
    · intro h1 h2
      have h1b : 0 < (competitorLoop benv cnow w1.job.items.length 0
          w1).job.failedCompetitors := by
        rw [← f2]
        exact h1
      have h2b : 0 < (competitorLoop benv cnow w1.job.items.length 0
          w1).job.completedCompetitors := by
        rw [← f1]
        exact h2
      exact f6 h1b h2b
    · intro h1 h2
      have h1b : 0 < (competitorLoop benv cnow w1.job.items.length 0
          w1).job.failedCompetitors := by
        rw [← f2]
        exact h1
      have h2b : (competitorLoop benv cnow w1.job.items.length 0
          w1).job.completedCompetitors = 0 := by
        rw [← f1]
        exact h2
      exact f7 h1b h2b

/-- Witness for C1: a one-ASIN review job whose variant succeeds ends
`completed`; scan finalization on a one-failed-item job recounts and ends
`failed`; a one-competitor job whose batch succeeds ends `completed`. -/
theorem C1_job_finalization_witness :
    (reviewRun
        (fun _ => { variants := [.ok [{ reviewId := some "r1",
                                        productTitle := some "T",
                                        payload := 0 }]]
                    persistFailure := none
                    existingIds := []
                    now := 5 }) 5 ["b1"]).status = .completed ∧
    (ProductScanService.complete_job 7 sampleFailedScanJob).completedListings =
      sampleFailedScanJob.items.countP
        (fun it => it.status == ItemStatus.completed) ∧
    (ProductScanService.complete_job 7 sampleFailedScanJob).status = .failed ∧
    (competitorRun (fun _ => .ok [sampleSuccessRecord]) 10 "com" [3]
        [sampleDailyCompetitor]).job.status = .completed := by
  have h := C1_job_finalization
    (fun _ => { variants := [.ok [{ reviewId := some "r1",
                                    productTitle := some "T",
                                    payload := 0 }]]
                persistFailure := none
                existingIds := []
                now := 5 }) 5 ["b1"] 7 sampleFailedScanJob
    (fun _ => .ok [sampleSuccessRecord]) 10 "com" [3] [sampleDailyCompetitor]
    (by decide)
  exact ⟨h.1.2.2.2.2.1 (by decide), h.2.1.1,
    h.2.1.2.2.2.2.2 (by decide) (by decide),
    h.2.2.2.2.2.1 (by decide)⟩

-- ===========================================================================
-- C2: the counter invariant at every observation point
-- ===========================================================================

/-- Two mutually exclusive predicates count at most the length together. -/
theorem countP_disjoint_le {α : Type} (p q : α → Bool) (l : List α)
    (h : ∀ x ∈ l, ¬(p x = true ∧ q x = true)) :
    l.countP p + l.countP q ≤ l.length := by
  induction l with
  | nil => simp
  | cons a l ih =>
    have ha := h a (by simp)
    have hl := ih (fun x hx => h x (by simp [hx]))
    rw [List.countP_cons, List.countP_cons, List.length_cons]
    by_cases hp : p a = true <;> by_cases hq : q a = true <;>
      simp [hp, hq] at ha ⊢ <;> omega

/-- The Review-family commit points: every write the request layer or the
worker performs on a `scrape_job` row and its `job_asin` rows. -/
inductive ReviewOp
  | start (now : Int)
  | sync
  | complete (now : Int) (isPartial : Bool)
  | fail (now : Int) (msg : String)
  | cancel (now : Int)
  | retry
  | recover (now : Int)
  | asin (idx : Nat) (env : AsinEnv)

/-- Interpretation of one Review-family operation (a rejected retry leaves
the state unchanged, mirroring the 400 response). -/
def applyReviewOp : ReviewOp → ScrapeJob → ScrapeJob
  | .start now, j => JobService.start_job now j
  | .sync, j => JobService.sync_job_stats j
  | .complete now p, j => JobService.complete_job now p j
  | .fail now m, j => JobService.fail_job now m j
  | .cancel now, j => JobService.cancel_job now j
  | .retry, j =>
    match retryFailedAsinsEndpoint j with
    | .ok j2 => j2
    | .error _ => j
  | .recover now, j => Worker.recoverReviewJob now j
  | .asin idx env, j =>
    match j.items[idx]? with
    | some r => { j with items := j.items.set idx (process_asin env r) }
    | none => j

/-- Run a sequence of Review-family operations. -/
def runReviewOps (ops : List ReviewOp) (j : ScrapeJob) : ScrapeJob :=
  ops.foldl (fun j op => applyReviewOp op j) j

/-- Review-family induction invariant: the counter bound plus the fact that
the item count never drifts from `total_asins`. -/
def reviewInv (j : ScrapeJob) : Prop :=
  j.completedAsins + j.failedAsins ≤ j.totalAsins ∧
  j.items.length = j.totalAsins

theorem applyReviewOp_inv (op : ReviewOp) (j : ScrapeJob)
    (h : reviewInv j) : reviewInv (applyReviewOp op j) := by
  obtain ⟨h1, h2⟩ := h
  cases op with
  | start now => exact ⟨h1, h2⟩
  | sync =>
    refine ⟨?_, rfl⟩
    show j.items.countP (fun r => r.status == ItemStatus.completed) +
      j.items.countP (fun r => r.status == ItemStatus.failed) ≤ j.items.length
    apply countP_disjoint_le
    intro x _
    rintro ⟨hp, hq⟩
    simp only [beq_iff_eq] at hp hq
    rw [hp] at hq
    exact absurd hq (by simp)
  | complete now p => exact ⟨h1, h2⟩
  | fail now m => exact ⟨h1, h2⟩
  | cancel now => exact ⟨h1, h2⟩
  | retry =>
    show reviewInv (match retryFailedAsinsEndpoint j with
      | .ok j2 => j2
      | .error _ => j)
    unfold retryFailedAsinsEndpoint JobService.retry_failed_asins
    by_cases hg : (j.status == JobStatus.completed ||
        j.status == JobStatus.partialDone || j.status == JobStatus.failed) = true
    · rw [if_pos hg]
      by_cases hz : (j.items.countP (fun r => r.status == ItemStatus.failed)
          == 0) = true
      · rw [if_pos hz]
        exact ⟨h1, h2⟩
      · rw [if_neg hz]
        exact ⟨h1, by simpa using h2⟩
    · rw [if_neg hg]
      exact ⟨h1, h2⟩
  | recover now =>
    show reviewInv (Worker.recoverReviewJob now j)
    unfold Worker.recoverReviewJob
    rcases j.startedAt with _ | t
    · exact ⟨h1, h2⟩
    · by_cases hc : (j.status == JobStatus.running &&
          decide (t < Worker.stuckThreshold now)) = true <;>
        simp [hc] <;> exact ⟨h1, h2⟩
  | asin idx env =>
    show reviewInv (match j.items[idx]? with
      | some r => { j with items := j.items.set idx (process_asin env r) }
      | none => j)
    rcases hit : j.items[idx]? with _ | r
    · exact ⟨h1, h2⟩
    · exact ⟨h1, by simpa [List.length_set] using h2⟩

theorem runReviewOps_inv (ops : List ReviewOp) (j : ScrapeJob)
    (h : reviewInv j) : reviewInv (runReviewOps ops j) := by
  induction ops generalizing j with
  | nil => exact h
  | cons op ops ih => exact ih _ (applyReviewOp_inv op j h)

/-- The Scan-family commit points (every item write goes through the
`ProductScanService` methods the batch code calls). -/
inductive ScanOp
  | start (now : Int)
  | completeJob (now : Int)
  | failJob (now : Int) (msg : String)
  | cancel (now : Int)
  | markRunning (idx : Nat) (now : Int)
  | completeItem (idx : Nat) (now : Int) (rating : Option String)
      (rc : Option Nat) (title : Option String) (sasin : Option String)
  | failItem (idx : Nat) (now : Int) (msg : String)
  | retry
  | recover (now : Int)

/-- Interpretation of one Scan-family operation (a rejected cancel or retry
leaves the state unchanged, mirroring the 400 response). -/
def applyScanOp : ScanOp → ProductScanJob → ProductScanJob
  | .start now, j => ProductScanService.start_job now j
  | .completeJob now, j => ProductScanService.complete_job now j
  | .failJob now m, j => ProductScanService.fail_job now m j
  | .cancel now, j =>
    match ProductScanService.cancel_job now j with
    | .ok j2 => j2
    | .error _ => j
  | .markRunning idx now, j =>
    match j.items[idx]? with
    | some it =>
      { j with items :=
          (j.items.set idx (ProductScanService.mark_item_running now it)) }
    | none => j
  | .completeItem idx now rating rc title sasin, j =>
    match j.items[idx]? with
    | some it =>
      { j with items :=
          (j.items.set idx
            (ProductScanService.complete_item now rating rc title sasin it)) }
    | none => j
  | .failItem idx now m, j =>
    match j.items[idx]? with
    | some it =>
      { j with items := (j.items.set idx (ProductScanService.fail_item now m it)) }
    | none => j
  | .retry, j =>
    match retryScanItemsEndpoint j with
    | .ok j2 => j2
    | .error _ => j
  | .recover now, j => Worker.recoverScanJob now j

/-- Run a sequence of Scan-family operations. -/
def runScanOps (ops : List ScanOp) (j : ProductScanJob) : ProductScanJob :=
  ops.foldl (fun j op => applyScanOp op j) j

/-- Scan-family induction invariant. -/
def scanInv (j : ProductScanJob) : Prop :=
  j.completedListings + j.failedListings ≤ j.totalListings ∧
  j.items.length = j.totalListings

theorem applyScanOp_inv (op : ScanOp) (j : ProductScanJob)
    (h : scanInv j) : scanInv (applyScanOp op j) := by
  obtain ⟨h1, h2⟩ := h
  cases op with
  | start now => exact ⟨h1, h2⟩
  | completeJob now =>
    refine ⟨?_, h2⟩
    show j.items.countP (fun it => it.status == ItemStatus.completed) +
        j.items.countP (fun it => it.status == ItemStatus.failed) ≤
      j.totalListings
    rw [← h2]
    apply countP_disjoint_le
    intro x _
    rintro ⟨hp, hq⟩
    simp only [beq_iff_eq] at hp hq
    rw [hp] at hq
    exact absurd hq (by simp)
  | failJob now m => exact ⟨h1, h2⟩
  | cancel now =>
    show scanInv (match ProductScanService.cancel_job now j with
      | .ok j2 => j2
      | .error _ => j)
    unfold ProductScanService.cancel_job
    by_cases hg : (j.status == JobStatus.queued ||
        j.status == JobStatus.running) = true
    · rw [if_pos hg]
      exact ⟨h1, h2⟩
    · rw [if_neg hg]
      exact ⟨h1, h2⟩
  | markRunning idx now =>
    show scanInv (match j.items[idx]? with
      | some it =>
        { j with items :=
            (j.items.set idx (ProductScanService.mark_item_running now it)) }
      | none => j)
    rcases hit : j.items[idx]? with _ | it
    · exact ⟨h1, h2⟩
    · exact ⟨h1, by simpa [List.length_set] using h2⟩
  | completeItem idx now rating rc title sasin =>
    show scanInv (match j.items[idx]? with
      | some it =>
        { j with items :=
            (j.items.set idx
              (ProductScanService.complete_item now rating rc title sasin it)) }
      | none => j)
    rcases hit : j.items[idx]? with _ | it
    · exact ⟨h1, h2⟩
    · exact ⟨h1, by simpa [List.length_set] using h2⟩
  | failItem idx now m =>
    show scanInv (match j.items[idx]? with
      | some it =>
        { j with items :=
            (j.items.set idx (ProductScanService.fail_item now m it)) }
      | none => j)
    rcases hit : j.items[idx]? with _ | it
    · exact ⟨h1, h2⟩
    · exact ⟨h1, by simpa [List.length_set] using h2⟩
  | retry =>
    show scanInv (match retryScanItemsEndpoint j with
      | .ok j2 => j2
      | .error _ => j)
    unfold retryScanItemsEndpoint ProductScanService.retry_failed_items
    by_cases hz : (j.items.countP (fun it => it.status == ItemStatus.failed)
        == 0) = true
    · simp only [hz, if_true]
      exact ⟨h1, h2⟩
    · simp only [hz, Bool.false_eq_true, if_false]
      have hpos : 0 < j.items.countP (fun it => it.status == ItemStatus.failed) := by
        simp only [beq_iff_eq] at hz
        omega
      simp only [hpos, if_pos]
      exact ⟨h1, by simpa using h2⟩
  | recover now =>
    show scanInv (Worker.recoverScanJob now j)
    unfold Worker.recoverScanJob
    rcases j.startedAt with _ | t
    · exact ⟨h1, h2⟩
    · by_cases hc : (j.status == JobStatus.running &&
          decide (t < Worker.stuckThreshold now)) = true <;>
        simp [hc] <;> exact ⟨h1, h2⟩

theorem runScanOps_inv (ops : List ScanOp) (j : ProductScanJob)
    (h : scanInv j) : scanInv (runScanOps ops j) := by
  induction ops generalizing j with
  | nil => exact h
  | cons op ops ih => exact ih _ (applyScanOp_inv op j h)

/-- The Competitor-family commit points: the worker's batch processing
(which takes the first `COMPETITOR_BATCH_SIZE` pending items itself), the
job status transitions, cancellation, and stuck-job recovery. -/
inductive CompetitorOp
  | start (now : Int)
  | finalize (now : Int)
  | failJob (now : Int) (msg : String)
  | cancel
  | recover (now : Int)
  | batch (now : Int) (resE : Except String (List ProductRecord))

/-- Interpretation of one Competitor-family operation. -/
def applyCompetitorOp : CompetitorOp → CompWorld → CompWorld
  | .start now, w =>
    { w with job := { w.job with status := .running, startedAt := some now } }
  | .finalize now, w => { w with job := finalizeCompetitorJob now w.job }
  | .failJob now m, w =>
    { w with job :=
        { w.job with
          status := .failed, errorMessage := some m, completedAt := some now } }
  | .cancel, w => { w with job := CompetitorService.cancel_scrape_job w.job }
  | .recover now, w => { w with job := Worker.recoverCompetitorJob now w.job }
  | .batch now resE, w =>
    processCompetitorBatch now resE w
      ((pendingIdxs w.job.items).take COMPETITOR_BATCH_SIZE)

/-- Run a sequence of Competitor-family operations. -/
def runCompetitorOps (ops : List CompetitorOp) (w : CompWorld) : CompWorld :=
  ops.foldl (fun w op => applyCompetitorOp op w) w

/-- Competitor-family induction invariant: each counter is bounded by the
actual status count (cancellation fails pending items without bumping the
counter, so only an inequality is stable), and the item count never exceeds
`total_competitors`. -/
def competitorInv (w : CompWorld) : Prop :=
  w.job.completedCompetitors ≤
    w.job.items.countP (fun it => it.status == ItemStatus.completed) ∧
  w.job.failedCompetitors ≤
    w.job.items.countP (fun it => it.status == ItemStatus.failed) ∧
  w.job.items.length ≤ w.job.totalCompetitors

/-- `cancel_scrape_job` keeps the completed count and can only grow the
failed count. -/
theorem cancel_counts (items : List CompetitorScrapeItem) :
    (items.map fun it =>
        if it.status == ItemStatus.pending then
          { it with
            status := ItemStatus.failed
            errorMessage := some "Job cancelled" }
        else it).countP (fun it => it.status == ItemStatus.completed) =
      items.countP (fun it => it.status == ItemStatus.completed) ∧
    items.countP (fun it => it.status == ItemStatus.failed) ≤
      (items.map fun it =>
        if it.status == ItemStatus.pending then
          { it with
            status := ItemStatus.failed
            errorMessage := some "Job cancelled" }
        else it).countP (fun it => it.status == ItemStatus.failed) := by
  constructor
  · rw [List.countP_map]
    symm
    apply List.countP_congr
    intro x _
    by_cases hp : (x.status == ItemStatus.pending) = true
    · have hpe : x.status = ItemStatus.pending := by simpa using hp
      simp [Function.comp, hp, hpe]
    · simp [Function.comp, hp]
  · rw [List.countP_map]
    apply List.countP_mono_left
    intro x _ hx
    by_cases hp : (x.status == ItemStatus.pending) = true
    · have hpe : x.status = ItemStatus.pending := by simpa using hp
      rw [hpe] at hx
      exact absurd hx (by simp)
    · simpa [Function.comp, hp] using hx

theorem applyCompetitorOp_inv (op : CompetitorOp) (w : CompWorld)
    (h : competitorInv w) : competitorInv (applyCompetitorOp op w) := by
  obtain ⟨h1, h2, h3⟩ := h
  cases op with
  | start now => exact ⟨h1, h2, h3⟩
  | finalize now =>
    obtain ⟨f1, f2, f3, f4, _, _, _⟩ := finalizeCompetitorJob_spec now w.job
    show competitorInv { w with job := finalizeCompetitorJob now w.job }
    refine ⟨?_, ?_, ?_⟩
    · show (finalizeCompetitorJob now w.job).completedCompetitors ≤ _
      rw [f1, f4]
      exact h1
    · show (finalizeCompetitorJob now w.job).failedCompetitors ≤ _
      rw [f2, f4]
      exact h2
    · show (finalizeCompetitorJob now w.job).items.length ≤
        (finalizeCompetitorJob now w.job).totalCompetitors
      rw [f3, f4]
      exact h3
  | failJob now m => exact ⟨h1, h2, h3⟩
  | cancel =>
    show competitorInv { w with job := CompetitorService.cancel_scrape_job w.job }
    obtain ⟨hc1, hc2⟩ := cancel_counts w.job.items
    refine ⟨?_, ?_, ?_⟩
    · show w.job.completedCompetitors ≤ _
      rw [show (CompetitorService.cancel_scrape_job w.job).items =
        (w.job.items.map fun it =>
          if it.status == ItemStatus.pending then
            { it with
              status := ItemStatus.failed
              errorMessage := some "Job cancelled" }
          else it) from rfl]
      rw [hc1]
      exact h1
    · show w.job.failedCompetitors ≤ _
      exact h2.trans hc2
    · show (CompetitorService.cancel_scrape_job w.job).items.length ≤
        w.job.totalCompetitors
      rw [show (CompetitorService.cancel_scrape_job w.job).items =
        (w.job.items.map fun it =>
          if it.status == ItemStatus.pending then
            { it with
              status := ItemStatus.failed
              errorMessage := some "Job cancelled" }
          else it) from rfl]
      rw [List.length_map]
      exact h3
  | recover now =>
    show competitorInv { w with job := Worker.recoverCompetitorJob now w.job }
    unfold Worker.recoverCompetitorJob
    rcases w.job.startedAt with _ | t
    · exact ⟨h1, h2, h3⟩
    · by_cases hc : (w.job.status == JobStatus.running &&
          decide (t < Worker.stuckThreshold now)) = true <;>
        simp [hc] <;> exact ⟨h1, h2, h3⟩
  | batch now resE =>
    show competitorInv (processCompetitorBatch now resE w
      ((pendingIdxs w.job.items).take COMPETITOR_BATCH_SIZE))
    have hbnd : ((pendingIdxs w.job.items).take COMPETITOR_BATCH_SIZE).Nodup :=
      (List.take_sublist _ _).nodup (pendingIdxs_nodup _)
    have hbpend : ∀ i ∈ (pendingIdxs w.job.items).take COMPETITOR_BATCH_SIZE,
        ∃ it, w.job.items[i]? = some it ∧ it.status = ItemStatus.pending :=
      fun i hi => (pendingIdxs_mem _ _).mp ((List.take_sublist _ _).subset hi)
    obtain ⟨b1, _, _, ⟨dc, df, bd1, bd2, bd3, bd4⟩, b5, _⟩ :=
      processCompetitorBatch_spec now resE w
        ((pendingIdxs w.job.items).take COMPETITOR_BATCH_SIZE) hbnd hbpend
    refine ⟨?_, ?_, ?_⟩
    · rw [bd1, bd2]
      omega
    · rw [bd3, bd4]
      omega
    · rw [b1, b5]
      exact h3

theorem runCompetitorOps_inv (ops : List CompetitorOp) (w : CompWorld)
    (h : competitorInv w) : competitorInv (runCompetitorOps ops w) := by
  induction ops generalizing w with
  | nil => exact h
  | cons op ops ih => exact ih _ (applyCompetitorOp_inv op w h)

/-- C2: in every family, after any sequence of worker/service operations on
a freshly created job, the completed counter plus the failed counter is at
most the total counter. -/
theorem C2_counter_invariant
    (rops : List ReviewOp) (asins : List String)
    (sops : List ScanOp) (listings : List (Nat × String))
    (cops : List CompetitorOp) (mp : String) (ids : List Nat)
    (cs : List Competitor) :
    (runReviewOps rops (JobService.create_job asins)).completedAsins +
        (runReviewOps rops (JobService.create_job asins)).failedAsins ≤
      (runReviewOps rops (JobService.create_job asins)).totalAsins ∧
    (runScanOps sops (ProductScanService.create_job listings)).completedListings +
        (runScanOps sops
          (ProductScanService.create_job listings)).failedListings ≤
      (runScanOps sops (ProductScanService.create_job listings)).totalListings ∧
    (runCompetitorOps cops
        { job := CompetitorService.create_scrape_job mp ids cs
          competitors := cs
          savedData := []
          priceHistory := [] }).job.completedCompetitors +
        (runCompetitorOps cops
          { job := CompetitorService.create_scrape_job mp ids cs
            competitors := cs
            savedData := []
            priceHistory := [] }).job.failedCompetitors ≤
      (runCompetitorOps cops
        { job := CompetitorService.create_scrape_job mp ids cs
          competitors := cs
          savedData := []
          priceHistory := [] }).job.totalCompetitors := by
  refine ⟨?_, ?_, ?_⟩
  · have hinit : reviewInv (JobService.create_job asins) := by
      constructor
      · show 0 + 0 ≤ asins.length
        omega
      · show (asins.map _).length = asins.length
        rw [List.length_map]
    exact (runReviewOps_inv rops _ hinit).1
  · have hinit : scanInv (ProductScanService.create_job listings) := by
      constructor
      · show 0 + 0 ≤ listings.length
        omega
      · show (listings.map _).length = listings.length
        rw [List.length_map]
    exact (runScanOps_inv sops _ hinit).1
  · have hinit : competitorInv
        { job := CompetitorService.create_scrape_job mp ids cs
          competitors := cs
          savedData := []
          priceHistory := [] } := by
      refine ⟨Nat.zero_le _, Nat.zero_le _, ?_⟩
      show (ids.filterMap _).length ≤ ids.length
      exact List.length_filterMap_le _ _
    obtain ⟨i1, i2, i3⟩ := runCompetitorOps_inv cops _ hinit
    have hd := countP_disjoint_le
      (fun it => it.status == ItemStatus.completed)
      (fun it => it.status == ItemStatus.failed)
      (runCompetitorOps cops
        { job := CompetitorService.create_scrape_job mp ids cs
          competitors := cs
          savedData := []
          priceHistory := [] }).job.items
      (by
        intro x _
        rintro ⟨hp, hq⟩
        simp only [beq_iff_eq] at hp hq
        rw [hp] at hq
        exact absurd hq (by simp))
    omega
